import Mathlib

/-!
Verification development for `src/ERNIE-Vil/model/vl_transformer_encoder.py`,
the two-stream (vision + language) transformer encoder of the
HatefulMemesChallenge repository.

The file shallowly embeds the graph-construction functions of that module:
`multi_head_attention`, `positionwise_feed_forward`, `pre_post_process_layer`
(with its `pre_process_layer` / `post_process_layer` aliases),
`encoder_layer`, `encoder_co_layer` and `encoder`.

Modelling decisions (all from the source):
* A tensor is a shape record together with a total index function into `ℚ`.
  Every framework operation produces a *clamped* tensor (`mk3` / `mk4`):
  out-of-range entries are `0`, matching the fact that a real tensor has no
  entries outside its shape.  Tensors of rank 2, 3 and 4 are packed into the
  sum type `PTensor`, so the dynamic rank checks of the source
  (`len(x.shape) == 3`, the 4-D check of `__combine_heads`) are expressible.
* Transcendental scalar functions that the numerical framework supplies
  (`exp` inside softmax, the float scalar `d_key ** -0.5`, the reciprocal of
  the layer-norm standard deviation, activation functions such as `'gelu'`)
  and the randomized dropout operators are abstracted into an `Env` record;
  the embedding is parametric in it.  Learned parameters (created by name by
  `paddle.fluid.layers.fc` / `layer_norm`) live in a `Params` record indexed
  by the parameter name, exactly the names built in the source.  Layer-norm
  scale/bias are `Option`-valued per name: a name missing from the loaded
  checkpoint keeps its initializer constants (`Constant(1.)` / `Constant(0.)`
  in the source).
* `raise ValueError` and Python's unbound-local failure are modelled with
  `Except String`; the error message strings are constants distinguishing the
  three failure sites of the source.
* `param_initializer` only affects parameter creation, which the `Params`
  store models, so it is not threaded separately; `debug=False` (the value
  every in-graph call site uses) is fixed, so the `debug` dictionaries of the
  source are not modelled.
-/

/-- A rank-3 tensor: shape `(d0, d1, d2)` and a total index function. -/
structure T3 where
  d0 : ℕ
  d1 : ℕ
  d2 : ℕ
  val : ℕ → ℕ → ℕ → ℚ

/-- A rank-4 tensor: shape `(d0, d1, d2, d3)` and a total index function. -/
structure T4 where
  d0 : ℕ
  d1 : ℕ
  d2 : ℕ
  d3 : ℕ
  val : ℕ → ℕ → ℕ → ℕ → ℚ

/-- A rank-2 tensor (only its rank is ever inspected by the source). -/
structure T2 where
  d0 : ℕ
  d1 : ℕ
  val : ℕ → ℕ → ℚ

/-- Abstract numerical environment: the scalar and tensor primitives supplied
by the framework that are not exact rational arithmetic. -/
structure Env where
  /-- `exp`, used by `layers.softmax`. -/
  exp : ℚ → ℚ
  /-- the Python scalar `d_key ** -0.5` used by `layers.scale`. -/
  rsqrt : ℕ → ℚ
  /-- named activation functions (`act='gelu'`, ... in `layers.fc`). -/
  actFn : String → ℚ → ℚ
  /-- `1 / sqrt(variance + epsilon)` inside `layers.layer_norm`. -/
  rstd : ℚ → ℚ
  /-- `layers.dropout` on a 3-D tensor, as a function of the seed and rate. -/
  drop3 : ℕ → ℚ → T3 → T3
  /-- `layers.dropout` on a 4-D tensor, as a function of the seed and rate. -/
  drop4 : ℕ → ℚ → T4 → T4

/-- A paddle tensor of any of the ranks occurring in the module. -/
inductive PTensor where
  | t2 : T2 → PTensor
  | t3 : T3 → PTensor
  | t4 : T4 → PTensor

/-- `len(x.shape)`. -/
def PTensor.ndim : PTensor → ℕ
  | .t2 _ => 2
  | .t3 _ => 3
  | .t4 _ => 4

/-- Build a rank-3 tensor whose entries vanish outside its shape. -/
def mk3 (b s d : ℕ) (f : ℕ → ℕ → ℕ → ℚ) : T3 :=
  ⟨b, s, d, fun i j k => if i < b ∧ j < s ∧ k < d then f i j k else 0⟩

/-- Build a rank-4 tensor whose entries vanish outside its shape. -/
def mk4 (b h s d : ℕ) (f : ℕ → ℕ → ℕ → ℕ → ℚ) : T4 :=
  ⟨b, h, s, d, fun i j k l => if i < b ∧ j < h ∧ k < s ∧ l < d then f i j k l else 0⟩

/-- The learned parameters, indexed by the names the source builds. -/
structure Params where
  /-- weight matrices of `layers.fc` (entry `(i, o)` of the named weight). -/
  w : String → ℕ → ℕ → ℚ
  /-- bias vectors of `layers.fc`. -/
  b : String → ℕ → ℚ
  /-- `layer_norm` scale vectors; `none` means the parameter keeps its
  initializer `Constant(1.)`. -/
  lnScale : String → Option (ℕ → ℚ)
  /-- `layer_norm` bias vectors; `none` means the parameter keeps its
  initializer `Constant(0.)`. -/
  lnBias : String → Option (ℕ → ℚ)

/-- Apply an optional named activation (the `act` argument of `layers.fc`). -/
def Env.applyAct (env : Env) (act : Option String) (x : ℚ) : ℚ :=
  match act with
  | none => x
  | some s => env.actFn s x

/-- The affine map computed by `layers.fc(num_flatten_dims=2)` at one output
coordinate, before clamping. -/
def fcRaw (env : Env) (ps : Params) (x : T3) (act : Option String)
    (wName bName : String) (i j o : ℕ) : ℚ :=
  env.applyAct act
    ((Finset.range x.d2).sum (fun c => x.val i j c * ps.w wName c o) + ps.b bName o)

/-- `layers.fc(input, size, num_flatten_dims=2, act, param_attr, bias_attr)`
on a 3-D input: a learned affine map applied to the last axis. -/
def fc3 (env : Env) (ps : Params) (x : T3) (size : ℕ) (act : Option String)
    (wName bName : String) : T3 :=
  mk3 x.d0 x.d1 size (fun i j o => fcRaw env ps x act wName bName i j o)

/-- `layers.scale(x, scale=c)` on a 4-D tensor. -/
def scale4 (c : ℚ) (x : T4) : T4 :=
  mk4 x.d0 x.d1 x.d2 x.d3 (fun i h j k => c * x.val i h j k)

/-- `layers.matmul(x, y, transpose_y=True)` on 4-D tensors (batched product
over the last two axes, the second factor transposed). -/
def matmulT (x y : T4) : T4 :=
  mk4 x.d0 x.d1 x.d2 y.d2
    (fun i h j l => (Finset.range x.d3).sum (fun c => x.val i h j c * y.val i h l c))

/-- `layers.matmul(x, y)` on 4-D tensors (batched product over the last two
axes). -/
def matmul4 (x y : T4) : T4 :=
  mk4 x.d0 x.d1 x.d2 y.d3
    (fun i h j l => (Finset.range x.d3).sum (fun c => x.val i h j c * y.val i h c l))

/-- Elementwise `+` on 4-D tensors (shape taken from the first operand, as
for equal-shape operands in the framework). -/
def add4 (x y : T4) : T4 :=
  mk4 x.d0 x.d1 x.d2 x.d3 (fun i h j k => x.val i h j k + y.val i h j k)

/-- Elementwise `+` on 3-D tensors. -/
def add3 (x y : T3) : T3 :=
  mk3 x.d0 x.d1 x.d2 (fun i j k => x.val i j k + y.val i j k)

/-- `layers.softmax` (over the last axis, its default). -/
def softmax4 (env : Env) (x : T4) : T4 :=
  mk4 x.d0 x.d1 x.d2 x.d3
    (fun i h j l =>
      env.exp (x.val i h j l) / (Finset.range x.d3).sum (fun c => env.exp (x.val i h j c)))

/-- `layers.transpose(x, perm=[0, 2, 1, 3])`. -/
def transpose0213 (x : T4) : T4 :=
  mk4 x.d0 x.d2 x.d1 x.d3 (fun i h j k => x.val i j h k)

/-- `layers.transpose(x, perm=[0, 1, 3, 2])` lifted to `PTensor` (the source
applies it to the 4-D `attn_vl_bias`; other ranks are left untouched). -/
def transpose0132P : PTensor → PTensor
  | .t4 t => .t4 (mk4 t.d0 t.d1 t.d3 t.d2 (fun i h j k => t.val i h k j))
  | o => o

/-- `layers.layer_norm(out, begin_norm_axis=len(out.shape)-1, ...)` on a 3-D
tensor: normalization over the last axis with learned scale and bias, whose
initializers are `Constant(1.)` and `Constant(0.)`. -/
def layerNorm3 (env : Env) (ps : Params) (nm : String) (x : T3) : T3 :=
  mk3 x.d0 x.d1 x.d2 (fun i j k =>
    let μ : ℚ := (Finset.range x.d2).sum (fun c => x.val i j c) / (x.d2 : ℚ)
    let σ2 : ℚ := (Finset.range x.d2).sum (fun c => (x.val i j c - μ) ^ 2) / (x.d2 : ℚ)
    ((ps.lnScale (nm ++ "_layer_norm_scale")).getD (fun _ => 1)) k
        * ((x.val i j k - μ) * env.rstd σ2)
      + ((ps.lnBias (nm ++ "_layer_norm_bias")).getD (fun _ => 0)) k)

/-- The error message of the 3-D input check in `multi_head_attention`
(`raise ValueError`; the source message interpolates the shapes, which the
constant elides). -/
def msgNot3D : String := "Inputs: quries, keys and values should all be 3-D tensors."

/-- The error message of the 4-D check inside `__combine_heads`. -/
def msgNot4D : String := "Input(x) should be a 4-D Tensor."

/-- Python's failure when `encoder` reads `enc_output` after a loop that never
ran (`UnboundLocalError`). -/
def msgUnbound : String := "local variable referenced before assignment"

/-- `__split_heads(x, n_head)`: reshape the last axis to
`[n_head, hidden_size // n_head]` and transpose with `perm=[0, 2, 1, 3]`. -/
def splitHeads (x : T3) (n_head : ℕ) : T4 :=
  let hidden_size := x.d2
  let reshaped : T4 :=
    mk4 x.d0 x.d1 n_head (hidden_size / n_head)
      (fun i j a c => x.val i j (a * (hidden_size / n_head) + c))
  transpose0213 reshaped

/-- `__combine_heads(x)`: a 3-D tensor is returned unchanged; a 4-D tensor is
transposed with `perm=[0, 2, 1, 3]` and its last two axes merged; any other
rank raises `ValueError`. -/
def combineHeads : PTensor → Except String PTensor
  | .t3 t => .ok (.t3 t)
  | .t4 t =>
      let trans_x := transpose0213 t
      .ok (.t3 (mk3 trans_x.d0 trans_x.d1 (trans_x.d2 * trans_x.d3)
        (fun i j e => trans_x.val i j (e / trans_x.d3) (e % trans_x.d3))))
  | _ => .error msgNot4D

/-- `scaled_dot_product_attention(q, k, v, attn_bias, d_key, dropout_rate)`
(the inner function of `multi_head_attention`; `seed` is captured from the
enclosing scope).  `attn_bias` is added only when it is non-null (`if
attn_bias:`); a non-4-D bias would be broadcast by the framework, which the
claims never exercise, so it is left without effect. -/
def scaled_dot_product_attention (env : Env) (q k v : T4) (attn_bias : Option PTensor)
    (d_key : ℕ) (dropout_rate : ℚ) (seed : ℕ) : T4 :=
  let scaled_q := scale4 (env.rsqrt d_key) q
  let product := matmulT scaled_q k
  let product :=
    match attn_bias with
    | some (.t4 b) => add4 product b
    | _ => product
  let weights := softmax4 env product
  let weights := if dropout_rate ≠ 0 then env.drop4 seed dropout_rate weights else weights
  matmul4 weights v

/-- Reshape of a cached tensor to `[0, 0, d_model]` followed by `concat`
with the fresh keys/values along axis 1 (the `cache is not None` branch of
`multi_head_attention`).  A cache entry that is not 3-D with last axis
`d_model` would be rejected by the framework; it is left without effect. -/
def concatCache (c : PTensor) (d_model : ℕ) (x : T3) : T3 :=
  match c with
  | .t3 t =>
      if t.d2 = d_model then
        mk3 t.d0 (t.d1 + x.d1) t.d2
          (fun i j k => if j < t.d1 then t.val i j k else x.val i (j - t.d1) k)
      else x
  | _ => x

/-- The trailing `layers.fc` of `multi_head_attention` (`# Project back to
the model size.`), applied to the result of `__combine_heads` with the first
raised error propagated. -/
def outputProj (env : Env) (ps : Params) (d_model : ℕ) (name : String) :
    Except String PTensor → Except String PTensor
  | .error e => .error e
  | .ok (.t3 out) =>
      .ok (.t3 (fc3 env ps out d_model none
        (name ++ "_output_fc.w_0") (name ++ "_output_fc.b_0")))
  | .ok o => .ok o

/-- The body of `multi_head_attention` after the `None` defaults for `keys`
and `values` are resolved: the 3-D check (`raise ValueError` on failure),
the `q`/`k`/`v` projections, the cache concatenation, the per-head
scaled dot-product attention, `__combine_heads` and the output projection. -/
def mhaChecked (env : Env) (ps : Params) (queries keys values : PTensor)
    (attn_bias : Option PTensor) (d_key d_value d_model n_head : ℕ)
    (dropout_rate : ℚ) (cache : Option (PTensor × PTensor)) (seed : ℕ)
    (name : String) : Except String PTensor :=
  match queries, keys, values with
  | .t3 q, .t3 k, .t3 v =>
      let q0 := fc3 env ps q (d_key * n_head) none
        (name ++ "_query_fc.w_0") (name ++ "_query_fc.b_0")
      let k0 := fc3 env ps k (d_key * n_head) none
        (name ++ "_key_fc.w_0") (name ++ "_key_fc.b_0")
      let v0 := fc3 env ps v (d_value * n_head) none
        (name ++ "_value_fc.w_0") (name ++ "_value_fc.b_0")
      let k1 := match cache with
        | none => k0
        | some (ck, _) => concatCache ck d_model k0
      let v1 := match cache with
        | none => v0
        | some (_, cv) => concatCache cv d_model v0
      let ctx_multiheads :=
        scaled_dot_product_attention env (splitHeads q0 n_head) (splitHeads k1 n_head)
          (splitHeads v1 n_head) attn_bias d_key dropout_rate seed
      outputProj env ps d_model name (combineHeads (.t4 ctx_multiheads))
  | _, _, _ => .error msgNot3D

/-- `multi_head_attention(queries, keys, values, attn_bias, d_key, d_value,
d_model, n_head, dropout_rate, cache, param_initializer, seed, name)`.
`keys` defaults to `queries` and `values` to `keys` when passed as `None`;
then all three inputs must be 3-D (`raise ValueError` otherwise). -/
def multi_head_attention (env : Env) (ps : Params) (queries : PTensor)
    (keys values : Option PTensor) (attn_bias : Option PTensor)
    (d_key d_value d_model n_head : ℕ) (dropout_rate : ℚ)
    (cache : Option (PTensor × PTensor)) (seed : ℕ) (name : String) :
    Except String PTensor :=
  let keys := keys.getD queries
  let values := values.getD keys
  mhaChecked env ps queries keys values attn_bias d_key d_value d_model n_head
    dropout_rate cache seed name

/-- `positionwise_feed_forward(x, d_inner_hid, d_hid, dropout_rate,
hidden_act, param_initializer, seed, name)`: two `fc` layers with the named
activation on the first, dropout in between only when the rate is nonzero. -/
def positionwise_feed_forward (env : Env) (ps : Params) (x : PTensor)
    (d_inner_hid d_hid : ℕ) (dropout_rate : ℚ) (hidden_act : Option String)
    (seed : ℕ) (name : String) : PTensor :=
  match x with
  | .t3 t =>
      let hidden := fc3 env ps t d_inner_hid hidden_act
        (name ++ "_fc_0.w_0") (name ++ "_fc_0.b_0")
      let hidden := if dropout_rate ≠ 0 then env.drop3 seed dropout_rate hidden else hidden
      .t3 (fc3 env ps hidden d_hid none (name ++ "_fc_1.w_0") (name ++ "_fc_1.b_0"))
  | o => o

/-- One step of the `for cmd in process_cmd` loop of
`pre_post_process_layer`: `'a'` adds the residual when `prev_out` is
non-null, `'n'` applies layer normalization, `'d'` applies dropout when the
rate is nonzero, any other character leaves the tensor unchanged. -/
def ppStep (env : Env) (ps : Params) (prev_out : Option PTensor)
    (dropout_rate : ℚ) (seed : ℕ) (nm : String) (x : T3) (cmd : Char) : T3 :=
  if cmd = 'a' then
    match prev_out with
    | some (.t3 p) => add3 x p
    | _ => x
  else if cmd = 'n' then
    layerNorm3 env ps nm x
  else if cmd = 'd' then
    if dropout_rate ≠ 0 then env.drop3 seed dropout_rate x else x
  else x

/-- `pre_post_process_layer(prev_out, out, process_cmd, dropout_rate, seed,
name)`: the commands of `process_cmd` applied to `out` from left to right
(the stream tensors of this module are 3-D; other ranks pass through). -/
def pre_post_process_layer (env : Env) (ps : Params) (prev_out : Option PTensor)
    (out : PTensor) (process_cmd : String) (dropout_rate : ℚ) (seed : ℕ)
    (nm : String) : PTensor :=
  match out with
  | .t3 x => .t3 (process_cmd.data.foldl (ppStep env ps prev_out dropout_rate seed nm) x)
  | o => o

/-- `pre_process_layer = partial(pre_post_process_layer, None)`. -/
def pre_process_layer (env : Env) (ps : Params) (out : PTensor)
    (process_cmd : String) (dropout_rate : ℚ) (seed : ℕ) (nm : String) : PTensor :=
  pre_post_process_layer env ps none out process_cmd dropout_rate seed nm

/-- `post_process_layer = pre_post_process_layer`. -/
def post_process_layer (env : Env) (ps : Params) (prev_out : Option PTensor)
    (out : PTensor) (process_cmd : String) (dropout_rate : ℚ) (seed : ℕ)
    (nm : String) : PTensor :=
  pre_post_process_layer env ps prev_out out process_cmd dropout_rate seed nm

/-- `encoder_layer(enc_input, attn_bias, n_head, d_key, d_value, d_model,
d_inner_hid, ...)`: pre-processed self-attention with residual
post-processing, then a pre-processed feed-forward with residual
post-processing. -/
def encoder_layer (env : Env) (ps : Params) (enc_input : PTensor) (attn_bias : PTensor)
    (n_head d_key d_value d_model d_inner_hid : ℕ)
    (prepostprocess_dropout attention_dropout relu_dropout : ℚ)
    (hidden_act : Option String) (preprocess_cmd postprocess_cmd : String)
    (seed : ℕ) (name : String) : Except String PTensor :=
  match multi_head_attention env ps
      (pre_process_layer env ps enc_input preprocess_cmd prepostprocess_dropout seed
        (name ++ "_pre_att"))
      none none (some attn_bias) d_key d_value d_model n_head attention_dropout
      none seed (name ++ "_multi_head_att") with
  | .error e => .error e
  | .ok attn =>
      let attn_output := post_process_layer env ps (some enc_input) attn
        postprocess_cmd prepostprocess_dropout seed (name ++ "_post_att")
      let ffd_output := positionwise_feed_forward env ps
        (pre_process_layer env ps attn_output preprocess_cmd prepostprocess_dropout seed
          (name ++ "_pre_ffn"))
        d_inner_hid d_model relu_dropout hidden_act seed (name ++ "_ffn")
      .ok (post_process_layer env ps (some attn_output) ffd_output
        postprocess_cmd prepostprocess_dropout seed (name ++ "_post_ffn"))

/-- `encoder_co_layer(enc_input, enc_vl_input, attn_vl_bias, co_head, co_key,
co_value, co_model, d_model, d_inner_hid, v_model, v_inner_hid, ...)`:
bidirectional cross-modal attention followed by per-stream feed-forward
networks, each with pre/post processing. -/
def encoder_co_layer (env : Env) (ps : Params) (enc_input enc_vl_input : PTensor)
    (attn_vl_bias : PTensor)
    (co_head co_key co_value co_model d_model d_inner_hid v_model v_inner_hid : ℕ)
    (prepostprocess_dropout attention_dropout relu_dropout : ℚ)
    (hidden_act : Option String) (preprocess_cmd postprocess_cmd : String)
    (seed : ℕ) (name : String) : Except String (PTensor × PTensor) :=
  let enc_input_pre := pre_process_layer env ps enc_input preprocess_cmd
    prepostprocess_dropout seed (name ++ "_pre_att")
  let enc_input_vl_pre := pre_process_layer env ps enc_vl_input preprocess_cmd
    prepostprocess_dropout seed (name ++ "_vl_pre_att")
  match multi_head_attention env ps enc_input_pre (some enc_input_vl_pre)
      (some enc_input_vl_pre) (some (transpose0132P attn_vl_bias))
      co_key co_value d_model co_head attention_dropout none seed
      (name ++ "_multi_head_att") with
  | .error e => .error e
  | .ok attn0 =>
      match multi_head_attention env ps enc_input_vl_pre (some enc_input_pre)
          (some enc_input_pre) (some attn_vl_bias)
          co_key co_value v_model co_head attention_dropout none seed
          (name ++ "_vl_multi_head_att") with
      | .error e => .error e
      | .ok attn_vl0 =>
          let attn_output := post_process_layer env ps (some enc_input) attn0
            postprocess_cmd prepostprocess_dropout seed (name ++ "_post_att")
          let attn_vl_output := post_process_layer env ps (some enc_vl_input) attn_vl0
            postprocess_cmd prepostprocess_dropout seed (name ++ "_vl_post_att")
          let ffd_output := positionwise_feed_forward env ps
            (pre_process_layer env ps attn_output preprocess_cmd
              prepostprocess_dropout seed (name ++ "_pre_ffn"))
            d_inner_hid d_model relu_dropout hidden_act seed (name ++ "_ffn")
          let ffd_vl_output := positionwise_feed_forward env ps
            (pre_process_layer env ps attn_vl_output preprocess_cmd
              prepostprocess_dropout seed (name ++ "_pre_vl_ffn"))
            v_inner_hid v_model relu_dropout hidden_act seed (name ++ "_vl_ffn")
          let enc_output := post_process_layer env ps (some attn_output) ffd_output
            postprocess_cmd prepostprocess_dropout seed (name ++ "_post_ffn")
          let enc_vl_output := post_process_layer env ps (some attn_vl_output)
            ffd_vl_output postprocess_cmd prepostprocess_dropout seed
            (name ++ "_vl_post_ffn")
          .ok (enc_output, enc_vl_output)

/-- The configuration threaded unchanged through the layer stack of
`encoder` (everything except the loop state). -/
structure EncConf where
  env : Env
  ps : Params
  attn_bias : PTensor
  attn_image_bias : PTensor
  attn_vl_bias : PTensor
  n_head : ℕ
  d_key : ℕ
  d_value : ℕ
  d_model : ℕ
  d_inner_hid : ℕ
  v_head : ℕ
  v_key : ℕ
  v_value : ℕ
  v_model : ℕ
  v_inner_hid : ℕ
  co_head : ℕ
  co_key : ℕ
  co_value : ℕ
  co_model : ℕ
  prepostprocess_dropout : ℚ
  attention_dropout : ℚ
  relu_dropout : ℚ
  hidden_act : Option String
  preprocess_cmd : String
  postprocess_cmd : String
  seed : ℕ
  name : String

/-- The text-stream `encoder_layer` call of `encoder` at index `idx`
(both inside the loop and, at `t_end`, after it). -/
def textLayer (c : EncConf) (idx : ℕ) (x : PTensor) : Except String PTensor :=
  encoder_layer c.env c.ps x c.attn_bias c.n_head c.d_key c.d_value c.d_model
    c.d_inner_hid c.prepostprocess_dropout c.attention_dropout c.relu_dropout
    c.hidden_act c.preprocess_cmd c.postprocess_cmd c.seed
    (c.name ++ "_layer_" ++ toString idx)

/-- The vision-stream `encoder_layer` call of `encoder` at index `idx`. -/
def visionLayer (c : EncConf) (idx : ℕ) (x : PTensor) : Except String PTensor :=
  encoder_layer c.env c.ps x c.attn_image_bias c.v_head c.v_key c.v_value c.v_model
    c.v_inner_hid c.prepostprocess_dropout c.attention_dropout c.relu_dropout
    c.hidden_act c.preprocess_cmd c.postprocess_cmd c.seed
    (c.name ++ "_vlayer_" ++ toString idx)

/-- The `encoder_co_layer` call of `encoder` at block `blk`. -/
def coLayer (c : EncConf) (blk : ℕ) (ei evi : PTensor) :
    Except String (PTensor × PTensor) :=
  encoder_co_layer c.env c.ps ei evi c.attn_vl_bias c.co_head c.co_key c.co_value
    c.co_model c.d_model c.d_inner_hid c.v_model c.v_inner_hid
    c.prepostprocess_dropout c.attention_dropout c.relu_dropout c.hidden_act
    c.preprocess_cmd c.postprocess_cmd c.seed
    (c.name ++ "_colayer_" ++ toString blk)

/-- `for idx in range(start, end): x = layer(x)`, with the first raised
error propagated. -/
def stackLayers (f : ℕ → PTensor → Except String PTensor) :
    List ℕ → PTensor → Except String PTensor
  | [], x => .ok x
  | i :: rest, x =>
      match f i x with
      | .error e => .error e
      | .ok y => stackLayers f rest y

/-- The `for v_layer_id, t_layer_id in zip(...)` loop of `encoder`: text
layers `[t_start, t_layer_id)`, vision layers `[v_start, v_layer_id)`, one
co-attention layer, each output fed forward; returns the final stream
tensors together with the final `v_end` and `t_end` (which the loop leaves
in `v_start` / `t_start` after its last iteration). -/
def encoderLoop (c : EncConf) :
    List (ℕ × ℕ) → PTensor → PTensor → ℕ → ℕ → ℕ →
    Except String (PTensor × PTensor × ℕ × ℕ)
  | [], ei, evi, v_start, t_start, _ => .ok (ei, evi, v_start, t_start)
  | (v_layer_id, t_layer_id) :: rest, ei, evi, v_start, t_start, block =>
      match stackLayers (textLayer c) (List.range' t_start (t_layer_id - t_start)) ei with
      | .error e => .error e
      | .ok eo =>
          match stackLayers (visionLayer c) (List.range' v_start (v_layer_id - v_start)) evi with
          | .error e => .error e
          | .ok evo =>
              match coLayer c block eo evo with
              | .error e => .error e
              | .ok (eo2, evo2) =>
                  encoderLoop c rest eo2 evo2 v_layer_id t_layer_id (block + 1)

/-- The part of `encoder` after the loop: one more `encoder_layer` per
stream (at `t_end` resp. `v_end`) and one `pre_process_layer` per stream
(named `post_encoder` / `vl_post_encoder`). -/
def encoderPost (c : EncConf) : PTensor × PTensor × ℕ × ℕ →
    Except String (PTensor × PTensor)
  | (ei, evi, v_end, t_end) =>
      match textLayer c t_end ei with
      | .error e => .error e
      | .ok eo =>
          match visionLayer c v_end evi with
          | .error e => .error e
          | .ok evo =>
              .ok (pre_process_layer c.env c.ps eo c.preprocess_cmd
                     c.prepostprocess_dropout c.seed ("post_encoder"),
                   pre_process_layer c.env c.ps evo c.preprocess_cmd
                     c.prepostprocess_dropout c.seed ("vl_post_encoder"))

/-- `encoder(...)`: the full two-stream encoder.  With an empty
`zip(v_biattention_id, t_biattention_id)` the Python source reads the
never-assigned local `enc_output` after the loop and fails with
`UnboundLocalError`, modelled by `.error msgUnbound`.  `n_layer` and
`co_inner_hid` are accepted and, as in the source, never used. -/
def encoder (env : Env) (ps : Params) (enc_input enc_vl_input : PTensor)
    (attn_bias attn_image_bias attn_vl_bias : PTensor)
    (n_layer n_head d_key d_value d_model d_inner_hid : ℕ)
    (v_head v_key v_value v_model v_inner_hid : ℕ)
    (co_head co_key co_value co_model co_inner_hid : ℕ)
    (prepostprocess_dropout attention_dropout relu_dropout : ℚ)
    (hidden_act : Option String) (preprocess_cmd postprocess_cmd : String)
    (v_biattention_id t_biattention_id : List ℕ) (seed : ℕ) (name : String) :
    Except String (PTensor × PTensor) :=
  let c : EncConf :=
    ⟨env, ps, attn_bias, attn_image_bias, attn_vl_bias, n_head, d_key, d_value,
      d_model, d_inner_hid, v_head, v_key, v_value, v_model, v_inner_hid,
      co_head, co_key, co_value, co_model, prepostprocess_dropout,
      attention_dropout, relu_dropout, hidden_act, preprocess_cmd,
      postprocess_cmd, seed, name⟩
  match v_biattention_id.zip t_biattention_id with
  | [] => .error msgUnbound
  | zs =>
      match encoderLoop c zs enc_input enc_vl_input 0 0 0 with
      | .error e => .error e
      | .ok r => encoderPost c r

/-- The optional bias addend of claim C1: the value of `attn_bias` at
`[i, h, j, l]` when the bias is non-null and `0` otherwise. -/
def biasAt (attn_bias : Option T4) (i h j l : ℕ) : ℚ :=
  match attn_bias with
  | some bb => bb.val i h j l
  | none => 0

/-- The scaled logit of head `h` between query position `j` and key position
`l` (claim C1): `(Q / sqrt(d_key)) Kᵀ + attn_bias` on the per-head
width-`d_key` slices of the projected tensors `qp`, `kp`. -/
def specLogit (env : Env) (qp kp : T3) (attn_bias : Option T4) (d_key : ℕ)
    (h i j l : ℕ) : ℚ :=
  (Finset.range d_key).sum
      (fun c => (env.rsqrt d_key * qp.val i j (h * d_key + c))
        * kp.val i l (h * d_key + c))
    + biasAt attn_bias i h j l

/-- Entry `c` of head `h`'s attention output at batch `i`, query position
`j` (claim C1): `softmax` of the scaled logits applied to the per-head
width-`d_value` slice of the projected values `vp`, summed over the `kd1`
key positions. -/
def specHead (env : Env) (qp kp vp : T3) (attn_bias : Option T4)
    (d_key d_value kd1 : ℕ) (h i j c : ℕ) : ℚ :=
  (Finset.range kd1).sum (fun l =>
    (env.exp (specLogit env qp kp attn_bias d_key h i j l)
        / (Finset.range kd1).sum
            (fun l2 => env.exp (specLogit env qp kp attn_bias d_key h i j l2)))
      * vp.val i l (h * d_value + c))

/-- The attention formula of claim C1, written as the spec states it: `Q`,
`K`, `V` are the per-head width-`d_key` (resp. `d_value`) slices of the
learned linear projections of the inputs; each head computes
`softmax((Q / sqrt(d_key)) Kᵀ + attn_bias) V`; the heads are concatenated
along the last axis and linearly projected to `d_model`. -/
def mhaSpec (env : Env) (ps : Params) (queries keys values : T3)
    (attn_bias : Option T4) (d_key d_value d_model n_head : ℕ) (name : String) : T3 :=
  let q := fc3 env ps queries (d_key * n_head) none
    (name ++ "_query_fc.w_0") (name ++ "_query_fc.b_0")
  let k := fc3 env ps keys (d_key * n_head) none
    (name ++ "_key_fc.w_0") (name ++ "_key_fc.b_0")
  let v := fc3 env ps values (d_value * n_head) none
    (name ++ "_value_fc.w_0") (name ++ "_value_fc.b_0")
  let concatHeads : T3 :=
    mk3 queries.d0 queries.d1 (n_head * d_value)
      (fun i j e => specHead env q k v attn_bias d_key d_value keys.d1
        (e / d_value) i j (e % d_value))
  fc3 env ps concatHeads d_model none
    (name ++ "_output_fc.w_0") (name ++ "_output_fc.b_0")

/-- The single per-position function of claim C5: a learned affine map to
`d_inner_hid` with the named activation, followed by a learned affine map
back to `d_hid`, acting on one position vector of width `din`. -/
def ffnPosFun (env : Env) (ps : Params) (hidden_act : Option String) (name : String)
    (din d_inner_hid d_hid : ℕ) (xi : ℕ → ℚ) : ℕ → ℚ :=
  fun o =>
    (Finset.range d_inner_hid).sum (fun c =>
        env.applyAct hidden_act
            ((Finset.range din).sum (fun e => xi e * ps.w (name ++ "_fc_0.w_0") e c)
              + ps.b (name ++ "_fc_0.b_0") c)
          * ps.w (name ++ "_fc_1.w_0") c o)
      + ps.b (name ++ "_fc_1.b_0") o

/-- Claim C3's description of `encoder_co_layer`: both streams are
pre-processed; the language stream attends with the preprocessed language
input as queries and the preprocessed vision input as keys and values under
the `[0,1,3,2]`-transposed bias; the vision stream attends the other way
round under the untransposed bias; each attention result is post-processed,
passed through its stream's feed-forward network (widths
`d_inner_hid`/`d_model` for language, `v_inner_hid`/`v_model` for vision)
and post-processed again. -/
def encoder_co_layer_spec (env : Env) (ps : Params) (enc_input enc_vl_input : PTensor)
    (attn_vl_bias : PTensor)
    (co_head co_key co_value co_model d_model d_inner_hid v_model v_inner_hid : ℕ)
    (prepostprocess_dropout attention_dropout relu_dropout : ℚ)
    (hidden_act : Option String) (preprocess_cmd postprocess_cmd : String)
    (seed : ℕ) (name : String) : Except String (PTensor × PTensor) :=
  let lang_pre := pre_process_layer env ps enc_input preprocess_cmd
    prepostprocess_dropout seed (name ++ "_pre_att")
  let vis_pre := pre_process_layer env ps enc_vl_input preprocess_cmd
    prepostprocess_dropout seed (name ++ "_vl_pre_att")
  match multi_head_attention env ps lang_pre (some vis_pre) (some vis_pre)
      (some (transpose0132P attn_vl_bias)) co_key co_value d_model co_head
      attention_dropout none seed (name ++ "_multi_head_att") with
  | .error e => .error e
  | .ok lang_att =>
      match multi_head_attention env ps vis_pre (some lang_pre) (some lang_pre)
          (some attn_vl_bias) co_key co_value v_model co_head
          attention_dropout none seed (name ++ "_vl_multi_head_att") with
      | .error e => .error e
      | .ok vis_att =>
          let lang_mid := post_process_layer env ps (some enc_input) lang_att
            postprocess_cmd prepostprocess_dropout seed (name ++ "_post_att")
          let vis_mid := post_process_layer env ps (some enc_vl_input) vis_att
            postprocess_cmd prepostprocess_dropout seed (name ++ "_vl_post_att")
          let lang_ffn := positionwise_feed_forward env ps
            (pre_process_layer env ps lang_mid preprocess_cmd
              prepostprocess_dropout seed (name ++ "_pre_ffn"))
            d_inner_hid d_model relu_dropout hidden_act seed (name ++ "_ffn")
          let vis_ffn := positionwise_feed_forward env ps
            (pre_process_layer env ps vis_mid preprocess_cmd
              prepostprocess_dropout seed (name ++ "_pre_vl_ffn"))
            v_inner_hid v_model relu_dropout hidden_act seed (name ++ "_vl_ffn")
          .ok (post_process_layer env ps (some lang_mid) lang_ffn
                 postprocess_cmd prepostprocess_dropout seed (name ++ "_post_ffn"),
               post_process_layer env ps (some vis_mid) vis_ffn
                 postprocess_cmd prepostprocess_dropout seed (name ++ "_vl_post_ffn"))

/-- One entry of the layer schedule described by claim C2. -/
inductive Tag where
  | tLayer : ℕ → Tag
  | vLayer : ℕ → Tag
  | coLayer : ℕ → Tag
  | postT : Tag
  | postV : Tag
deriving DecidableEq, Repr

/-- The in-loop part of claim C2's schedule: for each zipped pair, text
layers `[t_start, t_layer_id)`, vision layers `[v_start, v_layer_id)` and
exactly one co-attention layer. -/
def schedLoop : List (ℕ × ℕ) → ℕ → ℕ → ℕ → List Tag
  | [], _, _, _ => []
  | (v_layer_id, t_layer_id) :: rest, v_start, t_start, block =>
      ((List.range' t_start (t_layer_id - t_start)).map Tag.tLayer)
        ++ ((List.range' v_start (v_layer_id - v_start)).map Tag.vLayer)
        ++ Tag.coLayer block :: schedLoop rest v_layer_id t_layer_id (block + 1)

/-- The full schedule of claim C2: the loop schedule, one more encoder layer
per stream at the last zipped pair, and one final `pre_process_layer` per
stream. -/
def encSchedule (v_biattention_id t_biattention_id : List ℕ) : List Tag :=
  let zs := v_biattention_id.zip t_biattention_id
  let last := zs.getLastD (0, 0)
  schedLoop zs 0 0 0 ++ [Tag.tLayer last.2, Tag.vLayer last.1, Tag.postT, Tag.postV]

/-- Run a schedule: each tag applies the corresponding layer of the encoder
to the pair of stream tensors. -/
def runSchedule (c : EncConf) : List Tag → PTensor × PTensor →
    Except String (PTensor × PTensor)
  | [], st => .ok st
  | Tag.tLayer i :: rest, (ei, evi) =>
      match textLayer c i ei with
      | .error e => .error e
      | .ok eo => runSchedule c rest (eo, evi)
  | Tag.vLayer i :: rest, (ei, evi) =>
      match visionLayer c i evi with
      | .error e => .error e
      | .ok evo => runSchedule c rest (ei, evo)
  | Tag.coLayer blk :: rest, (ei, evi) =>
      match coLayer c blk ei evi with
      | .error e => .error e
      | .ok st => runSchedule c rest st
  | Tag.postT :: rest, (ei, evi) =>
      runSchedule c rest
        (pre_process_layer c.env c.ps ei c.preprocess_cmd c.prepostprocess_dropout
          c.seed ("post_encoder"), evi)
  | Tag.postV :: rest, (ei, evi) =>
      runSchedule c rest
        (ei, pre_process_layer c.env c.ps evi c.preprocess_cmd
          c.prepostprocess_dropout c.seed ("vl_post_encoder"))

/-- The indices `idx` of the text-stream `encoder_layer` calls performed by
`encoder` (the `_layer_<idx>` names), translated from its control flow: the
ranges `[t_start, t_layer_id)` of the loop followed by the post-loop call at
`t_end`.  Meaningful for a non-empty zip, the only case in which `encoder`
completes. -/
def textIndicesLoop : List (ℕ × ℕ) → ℕ → List ℕ
  | [], t_start => [t_start]
  | (_, t_layer_id) :: rest, t_start =>
      List.range' t_start (t_layer_id - t_start) ++ textIndicesLoop rest t_layer_id

/-- The text-stream `encoder_layer` indices of `encoder`. -/
def encoderTextIndices (v_biattention_id t_biattention_id : List ℕ) : List ℕ :=
  textIndicesLoop (v_biattention_id.zip t_biattention_id) 0

/-- The vision-stream analogue of `textIndicesLoop`. -/
def visionIndicesLoop : List (ℕ × ℕ) → ℕ → List ℕ
  | [], v_start => [v_start]
  | (v_layer_id, _) :: rest, v_start =>
      List.range' v_start (v_layer_id - v_start) ++ visionIndicesLoop rest v_layer_id

/-- The vision-stream `encoder_layer` indices of `encoder`. -/
def encoderVisionIndices (v_biattention_id t_biattention_id : List ℕ) : List ℕ :=
  visionIndicesLoop (v_biattention_id.zip t_biattention_id) 0

/-- A concrete environment (used by the witnesses). -/
def envW : Env :=
  ⟨fun x => x, fun _ => 1, fun _ x => x, fun x => x, fun _ _ t => t, fun _ _ t => t⟩

/-- A concrete parameter store (used by the witnesses). -/
def psW : Params := ⟨fun _ _ _ => 0, fun _ _ => 0, fun _ => none, fun _ => none⟩

/-- A concrete 3-D tensor (used by the witnesses). -/
def w3 : T3 := mk3 1 1 1 (fun _ _ _ => 1)

/-- A concrete 4-D tensor (used by the witnesses). -/
def w4 : T4 := mk4 1 1 1 1 (fun _ _ _ _ => 1)

/-- Extensionality for rank-3 tensors. -/
theorem T3.ext3 {x y : T3} (h0 : x.d0 = y.d0) (h1 : x.d1 = y.d1) (h2 : x.d2 = y.d2)
    (hv : ∀ i j k, x.val i j k = y.val i j k) : x = y := by
  cases x
  cases y
  cases h0
  cases h1
  cases h2
  exact congrArg _ (funext fun i => funext fun j => funext fun k => hv i j k)

theorem mk3_val (b s d : ℕ) (f : ℕ → ℕ → ℕ → ℚ) (i j k : ℕ) :
    (mk3 b s d f).val i j k = if i < b ∧ j < s ∧ k < d then f i j k else 0 := rfl

theorem mk4_val (b h s d : ℕ) (f : ℕ → ℕ → ℕ → ℕ → ℚ) (i j k l : ℕ) :
    (mk4 b h s d f).val i j k l = if i < b ∧ j < h ∧ k < s ∧ l < d then f i j k l else 0 := rfl

theorem fc3_val (env : Env) (ps : Params) (x : T3) (size : ℕ) (act : Option String)
    (wName bName : String) (i j o : ℕ) :
    (fc3 env ps x size act wName bName).val i j o =
      if i < x.d0 ∧ j < x.d1 ∧ o < size then fcRaw env ps x act wName bName i j o else 0 := rfl

theorem transpose0213_val (x : T4) (i h j k : ℕ) :
    (transpose0213 x).val i h j k =
      if i < x.d0 ∧ h < x.d2 ∧ j < x.d1 ∧ k < x.d3 then x.val i j h k else 0 := rfl

theorem splitHeads_val (x : T3) (n i a j c : ℕ) :
    (splitHeads x n).val i a j c =
      if i < x.d0 ∧ a < n ∧ j < x.d1 ∧ c < x.d2 / n
      then x.val i j (a * (x.d2 / n) + c) else 0 := by
  show (if i < x.d0 ∧ a < n ∧ j < x.d1 ∧ c < x.d2 / n
        then (if i < x.d0 ∧ j < x.d1 ∧ a < n ∧ c < x.d2 / n
              then x.val i j (a * (x.d2 / n) + c) else 0)
        else 0) = _
  split_ifs with h1 h2 <;> first | rfl | tauto

theorem combineHeads_t4 (t : T4) :
    combineHeads (.t4 t) =
      .ok (.t3 (mk3 t.d0 t.d2 (t.d1 * t.d3)
        (fun i j e => (transpose0213 t).val i j (e / t.d3) (e % t.d3)))) := rfl

/-- C8: for every 3-D tensor whose last dimension is divisible by `n_head`,
`__combine_heads (__split_heads x n_head)` is exactly `x`: the
`[0, 2, 1, 3]` split/merge of the last axis is an exact round-trip. -/
theorem combine_split_roundtrip (b s d n : ℕ) (f : ℕ → ℕ → ℕ → ℚ) (h : n ∣ d) :
    combineHeads (.t4 (splitHeads (mk3 b s d f) n)) = .ok (.t3 (mk3 b s d f)) := by
  rw [combineHeads_t4]
  refine congrArg (fun t => Except.ok (PTensor.t3 t)) (T3.ext3 rfl rfl ?_ ?_)
  · show n * (d / n) = d
    exact Nat.mul_div_cancel' h
  · intro i j e
    show (if i < b ∧ j < s ∧ e < n * (d / n)
          then (transpose0213 (splitHeads (mk3 b s d f) n)).val i j (e / (d / n)) (e % (d / n))
          else 0)
        = (mk3 b s d f).val i j e
    rw [Nat.mul_div_cancel' h, mk3_val]
    by_cases hr : i < b ∧ j < s ∧ e < d
    · obtain ⟨hi, hj, he⟩ := hr
      have hd0 : 0 < d := lt_of_le_of_lt (Nat.zero_le e) he
      have hn0 : 0 < n := by
        rcases Nat.eq_zero_or_pos n with h0 | h0
        · subst h0
          rw [Nat.zero_dvd.mp h] at hd0
          exact absurd hd0 (lt_irrefl 0)
        · exact h0
      have hdn : 0 < d / n := Nat.div_pos (Nat.le_of_dvd hd0 h) hn0
      have hlt : e < n * (d / n) := by rw [Nat.mul_div_cancel' h]; exact he
      have hdiv : e / (d / n) < n :=
        (Nat.div_lt_iff_lt_mul hdn).mpr hlt
      have hmod : e % (d / n) < d / n := Nat.mod_lt _ hdn
      rw [if_pos ⟨hi, hj, he⟩, transpose0213_val]
      rw [show (splitHeads (mk3 b s d f) n).d0 = b from rfl,
          show (splitHeads (mk3 b s d f) n).d1 = n from rfl,
          show (splitHeads (mk3 b s d f) n).d2 = s from rfl,
          show (splitHeads (mk3 b s d f) n).d3 = d / n from rfl]
      rw [if_pos ⟨hi, hj, hdiv, hmod⟩, splitHeads_val]
      rw [show (mk3 b s d f).d0 = b from rfl, show (mk3 b s d f).d1 = s from rfl,
          show (mk3 b s d f).d2 = d from rfl]
      rw [if_pos ⟨hi, hdiv, hj, hmod⟩, mk3_val]
      have harg : e / (d / n) * (d / n) + e % (d / n) = e := by
        rw [Nat.mul_comm]
        exact Nat.div_add_mod e (d / n)
      rw [harg, if_pos ⟨hi, hj, he⟩]
    · rw [if_neg hr, if_neg hr]

/-- C8 witness: a concrete instance with last dimension 2 and 2 heads. -/
theorem combine_split_roundtrip_witness :
    (2 ∣ 2) ∧ combineHeads (.t4 (splitHeads (mk3 1 1 2 (fun _ _ _ => 1)) 2))
      = .ok (.t3 (mk3 1 1 2 (fun _ _ _ => 1))) :=
  ⟨by decide, combine_split_roundtrip 1 1 2 2 (fun _ _ _ => 1) (by decide)⟩

/-- C4: `pre_post_process_layer` applies the commands of `process_cmd` to the
`out` tensor from left to right; `'a'` adds the previous output exactly when
one is provided (so `pre_process_layer`, which fixes `prev_out` to `None`,
never adds a residual), `'n'` applies last-axis layer normalization (whose
scale/bias parameters default to their initializers 1 and 0 when absent from
the store), `'d'` applies dropout only for a nonzero rate, and the empty
command string returns `out` unchanged. -/
theorem pre_post_process_layer_spec (env : Env) (ps : Params) (prev : Option PTensor)
    (x : T3) (rate : ℚ) (seed : ℕ) (nm : String) :
    (pre_post_process_layer env ps prev (.t3 x) ("") rate seed nm = .t3 x)
    ∧ (∀ s t : String,
        pre_post_process_layer env ps prev (.t3 x) (s ++ t) rate seed nm
          = pre_post_process_layer env ps prev
              (pre_post_process_layer env ps prev (.t3 x) s rate seed nm) t rate seed nm)
    ∧ (pre_post_process_layer env ps prev (.t3 x) ("a") rate seed nm
        = match prev with
          | some (.t3 p) => .t3 (add3 x p)
          | _ => .t3 x)
    ∧ (pre_post_process_layer env ps prev (.t3 x) ("n") rate seed nm
        = .t3 (layerNorm3 env ps nm x))
    ∧ (pre_post_process_layer env ps prev (.t3 x) ("d") rate seed nm
        = if rate ≠ 0 then .t3 (env.drop3 seed rate x) else .t3 x)
    ∧ (∀ cmd : String,
        pre_process_layer env ps (.t3 x) cmd rate seed nm
          = pre_post_process_layer env ps none (.t3 x) cmd rate seed nm)
    ∧ (pre_process_layer env ps (.t3 x) ("a") rate seed nm = .t3 x) := by
  refine ⟨rfl, ?_, ?_, ?_, ?_, fun cmd => rfl, rfl⟩
  · intro s t
    show PTensor.t3 (List.foldl _ x (s ++ t).data) = _
    rw [String.data_append, List.foldl_append]
    rfl
  · show PTensor.t3 (ppStep env ps prev rate seed nm x 'a') = _
    rcases prev with _ | p
    · rfl
    · cases p <;> rfl
  · show PTensor.t3 (ppStep env ps prev rate seed nm x 'n') = _
    rfl
  · show PTensor.t3 (ppStep env ps prev rate seed nm x 'd') = _
    show PTensor.t3 (if rate ≠ 0 then env.drop3 seed rate x else x) = _
    split_ifs <;> rfl

/-- C5: with zero dropout, `positionwise_feed_forward` applies one and the
same per-position function — a learned affine map to `d_inner_hid` with the
`hidden_act` activation followed by a learned affine map back to `d_hid` —
to every batch element and sequence position of a 3-D input. -/
theorem positionwise_feed_forward_pointwise (env : Env) (ps : Params) (x : T3)
    (d_inner_hid d_hid : ℕ) (hidden_act : Option String) (seed : ℕ) (nm : String) :
    positionwise_feed_forward env ps (.t3 x) d_inner_hid d_hid 0 hidden_act seed nm
      = .t3 (mk3 x.d0 x.d1 d_hid (fun i j o =>
          ffnPosFun env ps hidden_act nm x.d2 d_inner_hid d_hid
            (fun c => x.val i j c) o)) := by
  show PTensor.t3 (fc3 env ps
      (if (0 : ℚ) ≠ 0 then _ else fc3 env ps x d_inner_hid hidden_act _ _)
      d_hid none _ _) = _
  rw [if_neg (by norm_num)]
  refine congrArg PTensor.t3 (T3.ext3 rfl rfl rfl ?_)
  intro i j o
  rw [fc3_val, mk3_val]
  have hd0 : (fc3 env ps x d_inner_hid hidden_act (nm ++ "_fc_0.w_0")
      (nm ++ "_fc_0.b_0")).d0 = x.d0 := rfl
  rw [hd0, show (fc3 env ps x d_inner_hid hidden_act (nm ++ "_fc_0.w_0")
      (nm ++ "_fc_0.b_0")).d1 = x.d1 from rfl]
  by_cases hr : i < x.d0 ∧ j < x.d1 ∧ o < d_hid
  · rw [if_pos hr, if_pos hr]
    show Env.applyAct env none _ = _
    show ((Finset.range d_inner_hid).sum _) + _ = _
    refine congrArg (fun q => q + ps.b (nm ++ "_fc_1.b_0") o) ?_
    refine Finset.sum_congr rfl ?_
    intro c hc
    rw [fc3_val, if_pos ⟨hr.1, hr.2.1, Finset.mem_range.mp hc⟩]
    rfl
  · rw [if_neg hr, if_neg hr]

/-- C3: `encoder_co_layer` performs cross-modal attention in both directions
exactly as described by the spec: language queries against vision keys and
values under the `[0,1,3,2]`-transposed bias, vision queries against
language keys and values under the untransposed bias, each followed by
post-processing, the stream's feed-forward network (widths
`d_inner_hid`/`d_model` for language, `v_inner_hid`/`v_model` for vision),
and another post-processing, yielding `(enc_output, enc_vl_output)`. -/
theorem encoder_co_layer_refines (env : Env) (ps : Params)
    (enc_input enc_vl_input attn_vl_bias : PTensor)
    (co_head co_key co_value co_model d_model d_inner_hid v_model v_inner_hid : ℕ)
    (prepostprocess_dropout attention_dropout relu_dropout : ℚ)
    (hidden_act : Option String) (preprocess_cmd postprocess_cmd : String)
    (seed : ℕ) (name : String) :
    encoder_co_layer env ps enc_input enc_vl_input attn_vl_bias
        co_head co_key co_value co_model d_model d_inner_hid v_model v_inner_hid
        prepostprocess_dropout attention_dropout relu_dropout hidden_act
        preprocess_cmd postprocess_cmd seed name
      = encoder_co_layer_spec env ps enc_input enc_vl_input attn_vl_bias
          co_head co_key co_value co_model d_model d_inner_hid v_model v_inner_hid
          prepostprocess_dropout attention_dropout relu_dropout hidden_act
          preprocess_cmd postprocess_cmd seed name := rfl

/-- C7: each graph-construction function is pure — for a fixed environment
(numerical primitives and seed-indexed dropout operators) and a fixed
parameter store, equal input tensors give equal outputs; there is no hidden
state (`multi_head_attention` taken with `cache = None`). -/
theorem graph_functions_pure :
    (∀ (env : Env) (ps : Params) (q q' : PTensor) (k k' v v' ab ab' : Option PTensor)
        (d_key d_value d_model n_head : ℕ) (rate : ℚ) (seed : ℕ) (nm : String),
        q = q' → k = k' → v = v' → ab = ab' →
        multi_head_attention env ps q k v ab d_key d_value d_model n_head rate
            none seed nm
          = multi_head_attention env ps q' k' v' ab' d_key d_value d_model n_head rate
              none seed nm)
    ∧ (∀ (env : Env) (ps : Params) (x x' : PTensor) (d_inner_hid d_hid : ℕ) (rate : ℚ)
        (act : Option String) (seed : ℕ) (nm : String), x = x' →
        positionwise_feed_forward env ps x d_inner_hid d_hid rate act seed nm
          = positionwise_feed_forward env ps x' d_inner_hid d_hid rate act seed nm)
    ∧ (∀ (env : Env) (ps : Params) (prev prev' : Option PTensor) (o o' : PTensor)
        (cmd : String) (rate : ℚ) (seed : ℕ) (nm : String), prev = prev' → o = o' →
        pre_post_process_layer env ps prev o cmd rate seed nm
          = pre_post_process_layer env ps prev' o' cmd rate seed nm)
    ∧ (∀ (env : Env) (ps : Params) (x x' bias bias' : PTensor)
        (n_head d_key d_value d_model d_inner_hid : ℕ) (ppd ad rd : ℚ)
        (act : Option String) (pre post : String) (seed : ℕ) (nm : String),
        x = x' → bias = bias' →
        encoder_layer env ps x bias n_head d_key d_value d_model d_inner_hid
            ppd ad rd act pre post seed nm
          = encoder_layer env ps x' bias' n_head d_key d_value d_model d_inner_hid
              ppd ad rd act pre post seed nm)
    ∧ (∀ (env : Env) (ps : Params) (ei ei' evi evi' bias bias' : PTensor)
        (co_head co_key co_value co_model d_model d_inner_hid v_model v_inner_hid : ℕ)
        (ppd ad rd : ℚ) (act : Option String) (pre post : String) (seed : ℕ)
        (nm : String), ei = ei' → evi = evi' → bias = bias' →
        encoder_co_layer env ps ei evi bias co_head co_key co_value co_model d_model
            d_inner_hid v_model v_inner_hid ppd ad rd act pre post seed nm
          = encoder_co_layer env ps ei' evi' bias' co_head co_key co_value co_model
              d_model d_inner_hid v_model v_inner_hid ppd ad rd act pre post seed nm)
    ∧ (∀ (env : Env) (ps : Params) (ei ei' evi evi' ab ab' aib aib' avb avb' : PTensor)
        (n_layer n_head d_key d_value d_model d_inner_hid : ℕ)
        (v_head v_key v_value v_model v_inner_hid : ℕ)
        (co_head co_key co_value co_model co_inner_hid : ℕ)
        (ppd ad rd : ℚ) (act : Option String) (pre post : String)
        (v_ids t_ids : List ℕ) (seed : ℕ) (nm : String),
        ei = ei' → evi = evi' → ab = ab' → aib = aib' → avb = avb' →
        encoder env ps ei evi ab aib avb n_layer n_head d_key d_value d_model
            d_inner_hid v_head v_key v_value v_model v_inner_hid co_head co_key
            co_value co_model co_inner_hid ppd ad rd act pre post v_ids t_ids seed nm
          = encoder env ps ei' evi' ab' aib' avb' n_layer n_head d_key d_value d_model
              d_inner_hid v_head v_key v_value v_model v_inner_hid co_head co_key
              co_value co_model co_inner_hid ppd ad rd act pre post v_ids t_ids
              seed nm) := by
  refine ⟨?_, ?_, ?_, ?_, ?_, ?_⟩
  · intro env ps q q' k k' v v' ab ab' dk dv dm n rate seed nm h1 h2 h3 h4
    subst h1; subst h2; subst h3; subst h4; rfl
  · intro env ps x x' dih dh rate act seed nm h1
    subst h1; rfl
  · intro env ps prev prev' o o' cmd rate seed nm h1 h2
    subst h1; subst h2; rfl
  · intro env ps x x' bias bias' n dk dv dm dih ppd ad rd act pre post seed nm h1 h2
    subst h1; subst h2; rfl
  · intro env ps ei ei' evi evi' bias bias' ch ck cv cm dm dih vm vih ppd ad rd act
      pre post seed nm h1 h2 h3
    subst h1; subst h2; subst h3; rfl
  · intro env ps ei ei' evi evi' ab ab' aib aib' avb avb' nl n dk dv dm dih vh vk vv
      vm vih ch ck cv cm cih ppd ad rd act pre post v_ids t_ids seed nm h1 h2 h3 h4 h5
    subst h1; subst h2; subst h3; subst h4; subst h5; rfl

/-- C7 witness: the purity statements applied at concrete inputs. -/
theorem graph_functions_pure_witness :
    multi_head_attention envW psW (.t3 w3) none none none 1 1 1 1 0 none 0 ("m")
        = multi_head_attention envW psW (.t3 w3) none none none 1 1 1 1 0 none 0 ("m")
    ∧ positionwise_feed_forward envW psW (.t3 w3) 1 1 0 none 0 ("f")
        = positionwise_feed_forward envW psW (.t3 w3) 1 1 0 none 0 ("f")
    ∧ pre_post_process_layer envW psW none (.t3 w3) ("n") 0 0 ("p")
        = pre_post_process_layer envW psW none (.t3 w3) ("n") 0 0 ("p")
    ∧ encoder_layer envW psW (.t3 w3) (.t4 w4) 1 1 1 1 1 0 0 0 none ("") ("") 0 ("e")
        = encoder_layer envW psW (.t3 w3) (.t4 w4) 1 1 1 1 1 0 0 0 none ("") ("") 0 ("e")
    ∧ encoder_co_layer envW psW (.t3 w3) (.t3 w3) (.t4 w4) 1 1 1 1 1 1 1 1 0 0 0
          none ("") ("") 0 ("c")
        = encoder_co_layer envW psW (.t3 w3) (.t3 w3) (.t4 w4) 1 1 1 1 1 1 1 1 0 0 0
            none ("") ("") 0 ("c")
    ∧ encoder envW psW (.t3 w3) (.t3 w3) (.t4 w4) (.t4 w4) (.t4 w4)
          1 1 1 1 1 1 1 1 1 1 1 1 1 1 1 1 0 0 0 none ("") ("") [0] [0] 0 ("enc")
        = encoder envW psW (.t3 w3) (.t3 w3) (.t4 w4) (.t4 w4) (.t4 w4)
            1 1 1 1 1 1 1 1 1 1 1 1 1 1 1 1 0 0 0 none ("") ("") [0] [0] 0 ("enc") :=
  ⟨graph_functions_pure.1 envW psW _ _ _ _ _ _ _ _ 1 1 1 1 0 0 ("m")
      rfl rfl rfl rfl,
    graph_functions_pure.2.1 envW psW _ _ 1 1 0 none 0 ("f") rfl,
    graph_functions_pure.2.2.1 envW psW _ _ _ _ ("n") 0 0 ("p") rfl rfl,
    graph_functions_pure.2.2.2.1 envW psW _ _ _ _ 1 1 1 1 1 0 0 0 none ("") ("") 0
      ("e") rfl rfl,
    graph_functions_pure.2.2.2.2.1 envW psW _ _ _ _ _ _ 1 1 1 1 1 1 1 1 0 0 0 none
      ("") ("") 0 ("c") rfl rfl rfl,
    graph_functions_pure.2.2.2.2.2 envW psW _ _ _ _ _ _ _ _ _ _ 1 1 1 1 1 1 1 1 1 1
      1 1 1 1 1 1 0 0 0 none ("") ("") [0] [0] 0 ("enc") rfl rfl rfl rfl rfl⟩

/-- Case analysis of `multi_head_attention` with explicitly supplied keys and
values: the `ValueError` branch is taken exactly when some input is not 3-D,
and on 3-D inputs the computation always reaches the output projection. -/
theorem mha_cases (env : Env) (ps : Params) (Q K V : PTensor)
    (attn_bias : Option PTensor) (d_key d_value d_model n_head : ℕ) (rate : ℚ)
    (cache : Option (PTensor × PTensor)) (seed : ℕ) (nm : String) :
    ((multi_head_attention env ps Q (some K) (some V) attn_bias d_key d_value
          d_model n_head rate cache seed nm = .error msgNot3D)
        ↔ ¬(Q.ndim = 3 ∧ K.ndim = 3 ∧ V.ndim = 3))
    ∧ ((Q.ndim = 3 ∧ K.ndim = 3 ∧ V.ndim = 3)
        → ∃ out, multi_head_attention env ps Q (some K) (some V) attn_bias d_key
            d_value d_model n_head rate cache seed nm = .ok out) := by
  cases Q <;> cases K <;> cases V <;>
    constructor <;>
    simp [multi_head_attention, mhaChecked, outputProj, combineHeads, PTensor.ndim]

/-- C6: after the `None` defaults are resolved, `multi_head_attention`
raises its `ValueError` if and only if the three inputs are not all 3-D, and
under the all-3-D precondition no error branch (including the 4-D check of
`__combine_heads`, unreachable behind `__split_heads`) fires. -/
theorem mha_valueerror_iff (env : Env) (ps : Params) (queries : PTensor)
    (okeys ovalues attn_bias : Option PTensor) (d_key d_value d_model n_head : ℕ)
    (rate : ℚ) (cache : Option (PTensor × PTensor)) (seed : ℕ) (nm : String) :
    ((multi_head_attention env ps queries okeys ovalues attn_bias d_key d_value
          d_model n_head rate cache seed nm = .error msgNot3D)
        ↔ ¬(queries.ndim = 3 ∧ (okeys.getD queries).ndim = 3
            ∧ (ovalues.getD (okeys.getD queries)).ndim = 3))
    ∧ ((queries.ndim = 3 ∧ (okeys.getD queries).ndim = 3
          ∧ (ovalues.getD (okeys.getD queries)).ndim = 3)
        → ∃ out, multi_head_attention env ps queries okeys ovalues attn_bias d_key
            d_value d_model n_head rate cache seed nm = .ok out) := by
  rcases okeys with _ | K <;> rcases ovalues with _ | V <;>
    simp only [Option.getD_none, Option.getD_some] <;>
    exact mha_cases env ps _ _ _ attn_bias d_key d_value d_model n_head rate
      cache seed nm

/-- C6 witness: three 3-D inputs (via the defaults) reach the output
projection. -/
theorem mha_valueerror_iff_witness :
    ((PTensor.t3 w3).ndim = 3
        ∧ ((none : Option PTensor).getD (.t3 w3)).ndim = 3
        ∧ ((none : Option PTensor).getD
            ((none : Option PTensor).getD (.t3 w3))).ndim = 3)
    ∧ ∃ out, multi_head_attention envW psW (.t3 w3) none none none 1 1 1 1 0
        none 0 ("m") = .ok out :=
  ⟨⟨rfl, rfl, rfl⟩,
    (mha_valueerror_iff envW psW (.t3 w3) none none none 1 1 1 1 0 none 0
        ("m")).2 ⟨rfl, rfl, rfl⟩⟩

/-- The 3-D tensor produced by `__combine_heads` on a 4-D input (the `.ok`
payload of `combineHeads (.t4 t)`). -/
def combine3 (t : T4) : T3 :=
  mk3 (transpose0213 t).d0 (transpose0213 t).d1
    ((transpose0213 t).d2 * (transpose0213 t).d3)
    (fun i j e => (transpose0213 t).val i j (e / (transpose0213 t).d3)
      (e % (transpose0213 t).d3))

theorem combineHeads_t4_combine3 (t : T4) :
    combineHeads (.t4 t) = .ok (.t3 (combine3 t)) := rfl

theorem fc3_d0 (env : Env) (ps : Params) (x : T3) (s : ℕ) (a : Option String)
    (w bn : String) : (fc3 env ps x s a w bn).d0 = x.d0 := rfl

theorem fc3_d1 (env : Env) (ps : Params) (x : T3) (s : ℕ) (a : Option String)
    (w bn : String) : (fc3 env ps x s a w bn).d1 = x.d1 := rfl

theorem fc3_d2 (env : Env) (ps : Params) (x : T3) (s : ℕ) (a : Option String)
    (w bn : String) : (fc3 env ps x s a w bn).d2 = s := rfl

theorem splitHeads_d0 (x : T3) (n : ℕ) : (splitHeads x n).d0 = x.d0 := rfl

theorem splitHeads_d1 (x : T3) (n : ℕ) : (splitHeads x n).d1 = n := rfl

theorem splitHeads_d2 (x : T3) (n : ℕ) : (splitHeads x n).d2 = x.d1 := rfl

theorem splitHeads_d3 (x : T3) (n : ℕ) : (splitHeads x n).d3 = x.d2 / n := rfl

theorem scale4_dims (c : ℚ) (x : T4) :
    (scale4 c x).d0 = x.d0 ∧ (scale4 c x).d1 = x.d1 ∧ (scale4 c x).d2 = x.d2
      ∧ (scale4 c x).d3 = x.d3 := ⟨rfl, rfl, rfl, rfl⟩

/-- The bound `a * dh + c < dh * n` for a head index `a < n` and an
in-slice offset `c < dh`. -/
theorem headSliceBound {a c dh n : ℕ} (ha : a < n) (hc : c < dh) :
    a * dh + c < dh * n :=
  calc a * dh + c < (a + 1) * dh := by
        rw [Nat.succ_mul]; exact Nat.add_lt_add_left hc _
    _ ≤ n * dh := Nat.mul_le_mul_right dh ha
    _ = dh * n := Nat.mul_comm n dh

/-- Value of `__split_heads` applied to an `fc` projection of width
`dh * n`: the per-head slice of the raw affine map, clamped to the input
shape, head count and slice width. -/
theorem splitHeads_fc3_val (env : Env) (ps : Params) (x : T3) (dh n : ℕ)
    (hn : 0 < n) (w bn : String) (i a j c : ℕ) :
    (splitHeads (fc3 env ps x (dh * n) none w bn) n).val i a j c
      = if i < x.d0 ∧ a < n ∧ j < x.d1 ∧ c < dh
        then fcRaw env ps x none w bn i j (a * dh + c) else 0 := by
  rw [splitHeads_val, fc3_d0, fc3_d1, fc3_d2, Nat.mul_div_cancel _ hn]
  by_cases hr : i < x.d0 ∧ a < n ∧ j < x.d1 ∧ c < dh
  · rw [if_pos hr, if_pos hr, fc3_val,
      if_pos ⟨hr.1, hr.2.2.1, headSliceBound hr.2.1 hr.2.2.2⟩]
  · rw [if_neg hr, if_neg hr]

theorem matmulT_d0 (x y : T4) : (matmulT x y).d0 = x.d0 := rfl

theorem matmulT_d1 (x y : T4) : (matmulT x y).d1 = x.d1 := rfl

theorem matmulT_d2 (x y : T4) : (matmulT x y).d2 = x.d2 := rfl

theorem matmulT_d3 (x y : T4) : (matmulT x y).d3 = y.d2 := rfl

theorem matmul4_d0 (x y : T4) : (matmul4 x y).d0 = x.d0 := rfl

theorem matmul4_d1 (x y : T4) : (matmul4 x y).d1 = x.d1 := rfl

theorem matmul4_d2 (x y : T4) : (matmul4 x y).d2 = x.d2 := rfl

theorem matmul4_d3 (x y : T4) : (matmul4 x y).d3 = y.d3 := rfl

theorem softmax4_d0 (env : Env) (x : T4) : (softmax4 env x).d0 = x.d0 := rfl

theorem softmax4_d1 (env : Env) (x : T4) : (softmax4 env x).d1 = x.d1 := rfl

theorem softmax4_d2 (env : Env) (x : T4) : (softmax4 env x).d2 = x.d2 := rfl

theorem softmax4_d3 (env : Env) (x : T4) : (softmax4 env x).d3 = x.d3 := rfl

theorem scale4_d0 (c : ℚ) (x : T4) : (scale4 c x).d0 = x.d0 := rfl

theorem scale4_d1 (c : ℚ) (x : T4) : (scale4 c x).d1 = x.d1 := rfl

theorem scale4_d2 (c : ℚ) (x : T4) : (scale4 c x).d2 = x.d2 := rfl

theorem scale4_d3 (c : ℚ) (x : T4) : (scale4 c x).d3 = x.d3 := rfl

theorem scale4_val (c : ℚ) (x : T4) (i h j k : ℕ) :
    (scale4 c x).val i h j k =
      if i < x.d0 ∧ h < x.d1 ∧ j < x.d2 ∧ k < x.d3 then c * x.val i h j k else 0 := rfl

theorem matmulT_val (x y : T4) (i h j l : ℕ) :
    (matmulT x y).val i h j l =
      if i < x.d0 ∧ h < x.d1 ∧ j < x.d2 ∧ l < y.d2
      then (Finset.range x.d3).sum (fun c => x.val i h j c * y.val i h l c)
      else 0 := rfl

theorem matmul4_val (x y : T4) (i h j l : ℕ) :
    (matmul4 x y).val i h j l =
      if i < x.d0 ∧ h < x.d1 ∧ j < x.d2 ∧ l < y.d3
      then (Finset.range x.d3).sum (fun c => x.val i h j c * y.val i h c l)
      else 0 := rfl

theorem add4_val (x y : T4) (i h j k : ℕ) :
    (add4 x y).val i h j k =
      if i < x.d0 ∧ h < x.d1 ∧ j < x.d2 ∧ k < x.d3
      then x.val i h j k + y.val i h j k else 0 := rfl

theorem softmax4_val (env : Env) (x : T4) (i h j l : ℕ) :
    (softmax4 env x).val i h j l =
      if i < x.d0 ∧ h < x.d1 ∧ j < x.d2 ∧ l < x.d3
      then env.exp (x.val i h j l)
        / (Finset.range x.d3).sum (fun c => env.exp (x.val i h j c))
      else 0 := rfl

theorem combine3_d0 (t : T4) : (combine3 t).d0 = t.d0 := rfl

theorem combine3_d1 (t : T4) : (combine3 t).d1 = t.d2 := rfl

theorem combine3_d2 (t : T4) : (combine3 t).d2 = t.d1 * t.d3 := rfl

theorem mk3_d0 (b s d : ℕ) (f : ℕ → ℕ → ℕ → ℚ) : (mk3 b s d f).d0 = b := rfl

theorem mk3_d1 (b s d : ℕ) (f : ℕ → ℕ → ℕ → ℚ) : (mk3 b s d f).d1 = s := rfl

theorem mk3_d2 (b s d : ℕ) (f : ℕ → ℕ → ℕ → ℚ) : (mk3 b s d f).d2 = d := rfl

/-- `scaled_dot_product_attention` with zero dropout rate: the dropout
branch is skipped. -/
theorem sdpa_rate0 (env : Env) (q k v : T4) (attn_bias : Option PTensor)
    (d_key : ℕ) (seed : ℕ) :
    scaled_dot_product_attention env q k v attn_bias d_key 0 seed
      = matmul4
          (softmax4 env
            (match attn_bias with
             | some (.t4 b) => add4 (matmulT (scale4 (env.rsqrt d_key) q) k) b
             | _ => matmulT (scale4 (env.rsqrt d_key) q) k))
          v := by
  simp only [scaled_dot_product_attention]
  rw [if_neg (fun hh => hh rfl)]

/-- The pre-softmax attention logits of `multi_head_attention` on 3-D
inputs: the biased, scaled product of the split projections (a reduction
device for claim C1). -/
def attnProduct (env : Env) (ps : Params) (q k : T3) (attn_bias : Option T4)
    (d_key n : ℕ) (qw qb kw kb : String) : T4 :=
  match attn_bias with
  | some bb =>
      add4 (matmulT (scale4 (env.rsqrt d_key)
          (splitHeads (fc3 env ps q (d_key * n) none qw qb) n))
        (splitHeads (fc3 env ps k (d_key * n) none kw kb) n)) bb
  | none =>
      matmulT (scale4 (env.rsqrt d_key)
          (splitHeads (fc3 env ps q (d_key * n) none qw qb) n))
        (splitHeads (fc3 env ps k (d_key * n) none kw kb) n)

/-- The per-head attention context of `multi_head_attention` on 3-D inputs
(a reduction device for claim C1). -/
def attnCtx (env : Env) (ps : Params) (q k v : T3) (attn_bias : Option T4)
    (d_key d_value n : ℕ) (qw qb kw kb vw vb : String) : T4 :=
  matmul4 (softmax4 env (attnProduct env ps q k attn_bias d_key n qw qb kw kb))
    (splitHeads (fc3 env ps v (d_value * n) none vw vb) n)

theorem attnProduct_d0 (env : Env) (ps : Params) (q k : T3) (attn_bias : Option T4)
    (d_key n : ℕ) (qw qb kw kb : String) :
    (attnProduct env ps q k attn_bias d_key n qw qb kw kb).d0 = q.d0 := by
  rcases attn_bias with _ | bb <;> rfl

theorem attnProduct_d1 (env : Env) (ps : Params) (q k : T3) (attn_bias : Option T4)
    (d_key n : ℕ) (qw qb kw kb : String) :
    (attnProduct env ps q k attn_bias d_key n qw qb kw kb).d1 = n := by
  rcases attn_bias with _ | bb <;> rfl

theorem attnProduct_d2 (env : Env) (ps : Params) (q k : T3) (attn_bias : Option T4)
    (d_key n : ℕ) (qw qb kw kb : String) :
    (attnProduct env ps q k attn_bias d_key n qw qb kw kb).d2 = q.d1 := by
  rcases attn_bias with _ | bb <;> rfl

theorem attnProduct_d3 (env : Env) (ps : Params) (q k : T3) (attn_bias : Option T4)
    (d_key n : ℕ) (qw qb kw kb : String) :
    (attnProduct env ps q k attn_bias d_key n qw qb kw kb).d3 = k.d1 := by
  rcases attn_bias with _ | bb <;> rfl

/-- Value of the unbiased scaled product `(Q / sqrt(d_key)) Kᵀ` of the split
projections, in terms of the unsplit projected tensors. -/
theorem rawProduct_val (env : Env) (ps : Params) (q k : T3) (d_key n : ℕ)
    (hn : 0 < n) (qw qb kw kb : String) (i h j l : ℕ) :
    (matmulT (scale4 (env.rsqrt d_key)
        (splitHeads (fc3 env ps q (d_key * n) none qw qb) n))
      (splitHeads (fc3 env ps k (d_key * n) none kw kb) n)).val i h j l
      = if i < q.d0 ∧ h < n ∧ j < q.d1 ∧ l < k.d1
        then (Finset.range d_key).sum (fun c =>
          (env.rsqrt d_key * (fc3 env ps q (d_key * n) none qw qb).val i j (h * d_key + c))
            * (fc3 env ps k (d_key * n) none kw kb).val i l (h * d_key + c))
        else 0 := by
  rw [matmulT_val]
  simp only [scale4_d0, scale4_d1, scale4_d2, scale4_d3, splitHeads_d0,
    splitHeads_d1, splitHeads_d2, splitHeads_d3, fc3_d0, fc3_d1, fc3_d2]
  rw [Nat.mul_div_cancel _ hn]
  by_cases hr : i < q.d0 ∧ h < n ∧ j < q.d1 ∧ l < k.d1
  · rw [if_pos hr, if_pos hr]
    refine Finset.sum_congr rfl ?_
    intro c hc
    have hc' : c < d_key := Finset.mem_range.mp hc
    rw [scale4_val]
    simp only [splitHeads_d0, splitHeads_d1, splitHeads_d2, splitHeads_d3,
      fc3_d0, fc3_d1, fc3_d2, Nat.mul_div_cancel _ hn]
    rw [if_pos ⟨hr.1, hr.2.1, hr.2.2.1, hc'⟩]
    rw [splitHeads_fc3_val env ps q d_key n hn qw qb i h j c,
      if_pos ⟨hr.1, hr.2.1, hr.2.2.1, hc'⟩]
    rw [fc3_val env ps q (d_key * n) none qw qb i j (h * d_key + c),
      if_pos ⟨hr.1, hr.2.2.1, headSliceBound hr.2.1 hc'⟩]
    rw [splitHeads_fc3_val env ps k d_key n hn kw kb i h l c,
      fc3_val env ps k (d_key * n) none kw kb i l (h * d_key + c)]
    by_cases hik : i < k.d0 ∧ l < k.d1
    · rw [if_pos ⟨hik.1, hr.2.1, hik.2, hc'⟩,
        if_pos ⟨hik.1, hik.2, headSliceBound hr.2.1 hc'⟩]
    · have hnk1 : ¬(i < k.d0 ∧ h < n ∧ l < k.d1 ∧ c < d_key) :=
        fun hcon => hik ⟨hcon.1, hcon.2.2.1⟩
      have hnk2 : ¬(i < k.d0 ∧ l < k.d1 ∧ h * d_key + c < d_key * n) :=
        fun hcon => hik ⟨hcon.1, hcon.2.1⟩
      rw [if_neg hnk1, if_neg hnk2]
  · rw [if_neg hr, if_neg hr]

/-- Value of the biased attention logits: `specLogit` clamped to the region
of valid batch, head, query and key indices. -/
theorem attnProduct_val (env : Env) (ps : Params) (q k : T3) (attn_bias : Option T4)
    (d_key n : ℕ) (hn : 0 < n) (qw qb kw kb : String) (i h j l : ℕ) :
    (attnProduct env ps q k attn_bias d_key n qw qb kw kb).val i h j l
      = if i < q.d0 ∧ h < n ∧ j < q.d1 ∧ l < k.d1
        then specLogit env (fc3 env ps q (d_key * n) none qw qb)
          (fc3 env ps k (d_key * n) none kw kb) attn_bias d_key h i j l
        else 0 := by
  rcases attn_bias with _ | bb
  · show (matmulT _ _).val i h j l = _
    rw [rawProduct_val env ps q k d_key n hn qw qb kw kb i h j l]
    by_cases hr : i < q.d0 ∧ h < n ∧ j < q.d1 ∧ l < k.d1
    · rw [if_pos hr, if_pos hr]
      show _ = _ + biasAt none i h j l
      rw [show biasAt none i h j l = 0 from rfl, add_zero]
    · rw [if_neg hr, if_neg hr]
  · show (add4 (matmulT _ _) bb).val i h j l = _
    rw [add4_val]
    simp only [matmulT_d0, matmulT_d1, matmulT_d2, matmulT_d3, scale4_d0,
      scale4_d1, scale4_d2, scale4_d3, splitHeads_d0, splitHeads_d1,
      splitHeads_d2, splitHeads_d3, fc3_d0, fc3_d1, fc3_d2]
    by_cases hr : i < q.d0 ∧ h < n ∧ j < q.d1 ∧ l < k.d1
    · rw [if_pos hr, rawProduct_val env ps q k d_key n hn qw qb kw kb i h j l,
        if_pos hr, if_pos hr]
      show _ = _ + biasAt (some bb) i h j l
      rw [show biasAt (some bb) i h j l = bb.val i h j l from rfl]
    · rw [if_neg hr, if_neg hr]

/-- Value of the softmax attention weights: the normalized exponential of
`specLogit` over the key positions, clamped to the valid region. -/
theorem attnWeights_val (env : Env) (ps : Params) (q k : T3) (attn_bias : Option T4)
    (d_key n : ℕ) (hn : 0 < n) (qw qb kw kb : String) (i h j l : ℕ) :
    (softmax4 env (attnProduct env ps q k attn_bias d_key n qw qb kw kb)).val i h j l
      = if i < q.d0 ∧ h < n ∧ j < q.d1 ∧ l < k.d1
        then env.exp (specLogit env (fc3 env ps q (d_key * n) none qw qb)
              (fc3 env ps k (d_key * n) none kw kb) attn_bias d_key h i j l)
          / (Finset.range k.d1).sum (fun l2 =>
              env.exp (specLogit env (fc3 env ps q (d_key * n) none qw qb)
                (fc3 env ps k (d_key * n) none kw kb) attn_bias d_key h i j l2))
        else 0 := by
  rw [softmax4_val]
  simp only [attnProduct_d0, attnProduct_d1, attnProduct_d2, attnProduct_d3]
  by_cases hr : i < q.d0 ∧ h < n ∧ j < q.d1 ∧ l < k.d1
  · rw [if_pos hr, if_pos hr]
    rw [attnProduct_val env ps q k attn_bias d_key n hn qw qb kw kb i h j l,
      if_pos hr]
    congr 1
    refine Finset.sum_congr rfl ?_
    intro l2 hl2
    rw [attnProduct_val env ps q k attn_bias d_key n hn qw qb kw kb i h j l2,
      if_pos ⟨hr.1, hr.2.1, hr.2.2.1, Finset.mem_range.mp hl2⟩]
  · rw [if_neg hr, if_neg hr]

/-- Value of the per-head attention context: `specHead` clamped to the valid
region (batch, head, query position, value slice offset). -/
theorem attnCtx_val (env : Env) (ps : Params) (q k v : T3) (attn_bias : Option T4)
    (d_key d_value n : ℕ) (hn : 0 < n) (qw qb kw kb vw vb : String) (i h j c : ℕ) :
    (attnCtx env ps q k v attn_bias d_key d_value n qw qb kw kb vw vb).val i h j c
      = if i < q.d0 ∧ h < n ∧ j < q.d1 ∧ c < d_value
        then specHead env (fc3 env ps q (d_key * n) none qw qb)
          (fc3 env ps k (d_key * n) none kw kb)
          (fc3 env ps v (d_value * n) none vw vb) attn_bias d_key d_value k.d1 h i j c
        else 0 := by
  show (matmul4 _ _).val i h j c = _
  rw [matmul4_val]
  simp only [softmax4_d0, softmax4_d1, softmax4_d2, softmax4_d3, attnProduct_d0,
    attnProduct_d1, attnProduct_d2, attnProduct_d3, splitHeads_d0, splitHeads_d1,
    splitHeads_d2, splitHeads_d3, fc3_d0, fc3_d1, fc3_d2, Nat.mul_div_cancel _ hn]
  by_cases hr : i < q.d0 ∧ h < n ∧ j < q.d1 ∧ c < d_value
  · rw [if_pos hr, if_pos hr]
    show _ = (Finset.range k.d1).sum _
    refine Finset.sum_congr rfl ?_
    intro l hl
    have hl' : l < k.d1 := Finset.mem_range.mp hl
    rw [attnWeights_val env ps q k attn_bias d_key n hn qw qb kw kb i h j l,
      if_pos ⟨hr.1, hr.2.1, hr.2.2.1, hl'⟩]
    rw [splitHeads_fc3_val env ps v d_value n hn vw vb i h l c,
      fc3_val env ps v (d_value * n) none vw vb i l (h * d_value + c)]
    by_cases hvl : i < v.d0 ∧ l < v.d1
    · rw [if_pos ⟨hvl.1, hr.2.1, hvl.2, hr.2.2.2⟩,
        if_pos ⟨hvl.1, hvl.2, headSliceBound hr.2.1 hr.2.2.2⟩]
    · have hnv1 : ¬(i < v.d0 ∧ h < n ∧ l < v.d1 ∧ c < d_value) :=
        fun hcon => hvl ⟨hcon.1, hcon.2.2.1⟩
      have hnv2 : ¬(i < v.d0 ∧ l < v.d1 ∧ h * d_value + c < d_value * n) :=
        fun hcon => hvl ⟨hcon.1, hcon.2.1⟩
      rw [if_neg hnv1, if_neg hnv2]
  · rw [if_neg hr, if_neg hr]

theorem transpose0213_d0 (x : T4) : (transpose0213 x).d0 = x.d0 := rfl

theorem transpose0213_d1 (x : T4) : (transpose0213 x).d1 = x.d2 := rfl

theorem transpose0213_d2 (x : T4) : (transpose0213 x).d2 = x.d1 := rfl

theorem transpose0213_d3 (x : T4) : (transpose0213 x).d3 = x.d3 := rfl

theorem combine3_val (t : T4) (i j e : ℕ) :
    (combine3 t).val i j e =
      if i < (transpose0213 t).d0 ∧ j < (transpose0213 t).d1
          ∧ e < (transpose0213 t).d2 * (transpose0213 t).d3
      then (transpose0213 t).val i j (e / (transpose0213 t).d3)
        (e % (transpose0213 t).d3)
      else 0 := rfl

theorem attnCtx_d0 (env : Env) (ps : Params) (q k v : T3) (attn_bias : Option T4)
    (d_key d_value n : ℕ) (qw qb kw kb vw vb : String) :
    (attnCtx env ps q k v attn_bias d_key d_value n qw qb kw kb vw vb).d0 = q.d0 := by
  show (attnProduct env ps q k attn_bias d_key n qw qb kw kb).d0 = q.d0
  exact attnProduct_d0 env ps q k attn_bias d_key n qw qb kw kb

theorem attnCtx_d1 (env : Env) (ps : Params) (q k v : T3) (attn_bias : Option T4)
    (d_key d_value n : ℕ) (qw qb kw kb vw vb : String) :
    (attnCtx env ps q k v attn_bias d_key d_value n qw qb kw kb vw vb).d1 = n := by
  show (attnProduct env ps q k attn_bias d_key n qw qb kw kb).d1 = n
  exact attnProduct_d1 env ps q k attn_bias d_key n qw qb kw kb

theorem attnCtx_d2 (env : Env) (ps : Params) (q k v : T3) (attn_bias : Option T4)
    (d_key d_value n : ℕ) (qw qb kw kb vw vb : String) :
    (attnCtx env ps q k v attn_bias d_key d_value n qw qb kw kb vw vb).d2 = q.d1 := by
  show (attnProduct env ps q k attn_bias d_key n qw qb kw kb).d2 = q.d1
  exact attnProduct_d2 env ps q k attn_bias d_key n qw qb kw kb

theorem attnCtx_d3 (env : Env) (ps : Params) (q k v : T3) (attn_bias : Option T4)
    (d_key d_value n : ℕ) (qw qb kw kb vw vb : String) (hn : 0 < n) :
    (attnCtx env ps q k v attn_bias d_key d_value n qw qb kw kb vw vb).d3
      = d_value := by
  show d_value * n / n = d_value
  exact Nat.mul_div_cancel _ hn

/-- Value of `__combine_heads` applied to the per-head attention context:
the head-wise concatenation of `specHead`. -/
theorem combine3_attnCtx_val (env : Env) (ps : Params) (q k v : T3)
    (attn_bias : Option T4) (d_key d_value n : ℕ) (hn : 0 < n)
    (qw qb kw kb vw vb : String) (i j e : ℕ) :
    (combine3 (attnCtx env ps q k v attn_bias d_key d_value n qw qb kw kb vw vb)).val
        i j e
      = if i < q.d0 ∧ j < q.d1 ∧ e < n * d_value
        then specHead env (fc3 env ps q (d_key * n) none qw qb)
          (fc3 env ps k (d_key * n) none kw kb)
          (fc3 env ps v (d_value * n) none vw vb) attn_bias d_key d_value k.d1
          (e / d_value) i j (e % d_value)
        else 0 := by
  rw [combine3_val]
  simp only [transpose0213_d0, transpose0213_d1, transpose0213_d2, transpose0213_d3,
    attnCtx_d0, attnCtx_d1, attnCtx_d2,
    attnCtx_d3 env ps q k v attn_bias d_key d_value n qw qb kw kb vw vb hn]
  by_cases hr : i < q.d0 ∧ j < q.d1 ∧ e < n * d_value
  · have hdv : 0 < d_value := by
      rcases Nat.eq_zero_or_pos d_value with h0 | h0
      · subst h0
        rw [Nat.mul_zero] at hr
        exact absurd hr.2.2 (Nat.not_lt_zero e)
      · exact h0
    have hdiv : e / d_value < n := (Nat.div_lt_iff_lt_mul hdv).mpr hr.2.2
    have hmod : e % d_value < d_value := Nat.mod_lt _ hdv
    rw [if_pos hr, if_pos hr, transpose0213_val]
    simp only [attnCtx_d0, attnCtx_d1, attnCtx_d2,
      attnCtx_d3 env ps q k v attn_bias d_key d_value n qw qb kw kb vw vb hn]
    rw [if_pos ⟨hr.1, hr.2.1, hdiv, hmod⟩,
      attnCtx_val env ps q k v attn_bias d_key d_value n hn qw qb kw kb vw vb,
      if_pos ⟨hr.1, hdiv, hr.2.1, hmod⟩]
  · rw [if_neg hr, if_neg hr]

/-- C1: on 3-D inputs, with `attn_bias` optional, zero dropout and no cache,
`multi_head_attention` returns exactly the output linear projection to
`d_model` of the head-wise concatenation of
`softmax((Q / sqrt(d_key)) Kᵀ + attn_bias) V`, where `Q`, `K`, `V` are the
per-head width-`d_key` (resp. `d_value`) slices of the learned projections
of the inputs; the bias is added only when non-null, and no dropout is
applied.  Keys default to the queries and values to the keys when passed as
`None`. -/
theorem mha_formula (env : Env) (ps : Params) (q k v : T3) (obias : Option T4)
    (d_key d_value d_model n_head : ℕ) (seed : ℕ) (nm : String)
    (hn : 0 < n_head) :
    (multi_head_attention env ps (.t3 q) (some (.t3 k)) (some (.t3 v))
        (obias.map .t4) d_key d_value d_model n_head 0 none seed nm
      = .ok (.t3 (mhaSpec env ps q k v obias d_key d_value d_model n_head nm)))
    ∧ (∀ (ov ab : Option PTensor) (rate : ℚ) (cache : Option (PTensor × PTensor)),
        multi_head_attention env ps (.t3 q) none ov ab d_key d_value d_model
            n_head rate cache seed nm
          = multi_head_attention env ps (.t3 q) (some (.t3 q)) ov ab d_key d_value
              d_model n_head rate cache seed nm)
    ∧ (∀ (ab : Option PTensor) (rate : ℚ) (cache : Option (PTensor × PTensor)),
        multi_head_attention env ps (.t3 q) (some (.t3 k)) none ab d_key d_value
            d_model n_head rate cache seed nm
          = multi_head_attention env ps (.t3 q) (some (.t3 k)) (some (.t3 k)) ab
              d_key d_value d_model n_head rate cache seed nm) := by
  refine ⟨?_, fun ov ab rate cache => rfl, fun ab rate cache => rfl⟩
  have step1 : multi_head_attention env ps (.t3 q) (some (.t3 k)) (some (.t3 v))
      (obias.map .t4) d_key d_value d_model n_head 0 none seed nm
      = outputProj env ps d_model nm (combineHeads (.t4
          (scaled_dot_product_attention env
            (splitHeads (fc3 env ps q (d_key * n_head) none
              (nm ++ "_query_fc.w_0") (nm ++ "_query_fc.b_0")) n_head)
            (splitHeads (fc3 env ps k (d_key * n_head) none
              (nm ++ "_key_fc.w_0") (nm ++ "_key_fc.b_0")) n_head)
            (splitHeads (fc3 env ps v (d_value * n_head) none
              (nm ++ "_value_fc.w_0") (nm ++ "_value_fc.b_0")) n_head)
            (obias.map .t4) d_key 0 seed))) := rfl
  have step2 : scaled_dot_product_attention env
      (splitHeads (fc3 env ps q (d_key * n_head) none
        (nm ++ "_query_fc.w_0") (nm ++ "_query_fc.b_0")) n_head)
      (splitHeads (fc3 env ps k (d_key * n_head) none
        (nm ++ "_key_fc.w_0") (nm ++ "_key_fc.b_0")) n_head)
      (splitHeads (fc3 env ps v (d_value * n_head) none
        (nm ++ "_value_fc.w_0") (nm ++ "_value_fc.b_0")) n_head)
      (obias.map .t4) d_key 0 seed
      = attnCtx env ps q k v obias d_key d_value n_head
          (nm ++ "_query_fc.w_0") (nm ++ "_query_fc.b_0")
          (nm ++ "_key_fc.w_0") (nm ++ "_key_fc.b_0")
          (nm ++ "_value_fc.w_0") (nm ++ "_value_fc.b_0") := by
    rw [sdpa_rate0]
    rcases obias with _ | bb <;> rfl
  rw [step1, step2, combineHeads_t4_combine3]
  show Except.ok (PTensor.t3 (fc3 env ps
      (combine3 (attnCtx env ps q k v obias d_key d_value n_head
        (nm ++ "_query_fc.w_0") (nm ++ "_query_fc.b_0")
        (nm ++ "_key_fc.w_0") (nm ++ "_key_fc.b_0")
        (nm ++ "_value_fc.w_0") (nm ++ "_value_fc.b_0")))
      d_model none (nm ++ "_output_fc.w_0") (nm ++ "_output_fc.b_0"))) = _
  refine congrArg (fun t => Except.ok (PTensor.t3 t)) (T3.ext3 ?_ ?_ ?_ ?_)
  · show (attnProduct env ps q k obias d_key n_head
        (nm ++ "_query_fc.w_0") (nm ++ "_query_fc.b_0")
        (nm ++ "_key_fc.w_0") (nm ++ "_key_fc.b_0")).d0 = q.d0
    exact attnProduct_d0 env ps q k obias d_key n_head _ _ _ _
  · show (attnProduct env ps q k obias d_key n_head
        (nm ++ "_query_fc.w_0") (nm ++ "_query_fc.b_0")
        (nm ++ "_key_fc.w_0") (nm ++ "_key_fc.b_0")).d2 = q.d1
    exact attnProduct_d2 env ps q k obias d_key n_head _ _ _ _
  · rfl
  · intro i j o
    show _ = (fc3 env ps (mk3 q.d0 q.d1 (n_head * d_value) (fun i j e =>
      specHead env
        (fc3 env ps q (d_key * n_head) none
          (nm ++ "_query_fc.w_0") (nm ++ "_query_fc.b_0"))
        (fc3 env ps k (d_key * n_head) none
          (nm ++ "_key_fc.w_0") (nm ++ "_key_fc.b_0"))
        (fc3 env ps v (d_value * n_head) none
          (nm ++ "_value_fc.w_0") (nm ++ "_value_fc.b_0"))
        obias d_key d_value k.d1 (e / d_value) i j (e % d_value)))
      d_model none (nm ++ "_output_fc.w_0") (nm ++ "_output_fc.b_0")).val i j o
    rw [fc3_val, fc3_val]
    simp only [mk3_d0, mk3_d1, mk3_d2, combine3_d0, combine3_d1, combine3_d2,
      attnCtx_d0, attnCtx_d1, attnCtx_d2,
      attnCtx_d3 env ps q k v obias d_key d_value n_head
        (nm ++ "_query_fc.w_0") (nm ++ "_query_fc.b_0")
        (nm ++ "_key_fc.w_0") (nm ++ "_key_fc.b_0")
        (nm ++ "_value_fc.w_0") (nm ++ "_value_fc.b_0") hn]
    by_cases hr : i < q.d0 ∧ j < q.d1 ∧ o < d_model
    · rw [if_pos hr, if_pos hr]
      simp only [fcRaw]
      simp only [mk3_d2, combine3_d2, attnCtx_d1,
        attnCtx_d3 env ps q k v obias d_key d_value n_head
          (nm ++ "_query_fc.w_0") (nm ++ "_query_fc.b_0")
          (nm ++ "_key_fc.w_0") (nm ++ "_key_fc.b_0")
          (nm ++ "_value_fc.w_0") (nm ++ "_value_fc.b_0") hn]
      congr 1
      congr 1
      refine Finset.sum_congr rfl ?_
      intro e he
      have he' : e < n_head * d_value := Finset.mem_range.mp he
      rw [combine3_attnCtx_val env ps q k v obias d_key d_value n_head hn
          (nm ++ "_query_fc.w_0") (nm ++ "_query_fc.b_0")
          (nm ++ "_key_fc.w_0") (nm ++ "_key_fc.b_0")
          (nm ++ "_value_fc.w_0") (nm ++ "_value_fc.b_0") i j e,
        mk3_val, if_pos ⟨hr.1, hr.2.1, he'⟩]
    · rw [if_neg hr, if_neg hr]

/-- C1 witness: the attention formula at a concrete one-head instance. -/
theorem mha_formula_witness :
    0 < 1
    ∧ multi_head_attention envW psW (.t3 w3) (some (.t3 w3)) (some (.t3 w3))
        ((some w4).map .t4) 1 1 1 1 0 none 0 ("m")
      = .ok (.t3 (mhaSpec envW psW w3 w3 w3 (some w4) 1 1 1 1 ("m"))) :=
  ⟨by decide,
    (mha_formula envW psW w3 w3 w3 (some w4) 1 1 1 1 0 ("m") (by decide)).1⟩

/-- Any error of `mhaChecked` is the 3-D-input `ValueError`. -/
theorem mhaChecked_error (env : Env) (ps : Params) (Q K V : PTensor)
    (ab : Option PTensor) (dk dv dm n : ℕ) (r : ℚ)
    (cache : Option (PTensor × PTensor)) (seed : ℕ) (nm : String) (e : String) :
    mhaChecked env ps Q K V ab dk dv dm n r cache seed nm = .error e
      → e = msgNot3D := by
  cases Q <;> cases K <;> cases V <;>
    simp [mhaChecked, outputProj, combineHeads] <;>
    (intro h; exact h.symm)

/-- Any error of `multi_head_attention` is the 3-D-input `ValueError`. -/
theorem mha_error (env : Env) (ps : Params) (Q : PTensor) (ok ov : Option PTensor)
    (ab : Option PTensor) (dk dv dm n : ℕ) (r : ℚ)
    (cache : Option (PTensor × PTensor)) (seed : ℕ) (nm : String) (e : String) :
    multi_head_attention env ps Q ok ov ab dk dv dm n r cache seed nm = .error e
      → e = msgNot3D :=
  fun h => mhaChecked_error env ps Q (ok.getD Q) (ov.getD (ok.getD Q)) ab dk dv dm
    n r cache seed nm e h

/-- Any error of `encoder_layer` is the 3-D-input `ValueError`. -/
theorem encoder_layer_error (env : Env) (ps : Params) (x bias : PTensor)
    (n dk dv dm dih : ℕ) (ppd ad rd : ℚ) (act : Option String) (pre post : String)
    (seed : ℕ) (nm : String) (e : String) :
    encoder_layer env ps x bias n dk dv dm dih ppd ad rd act pre post seed nm
        = .error e → e = msgNot3D := by
  intro h
  unfold encoder_layer at h
  split at h
  · rename_i e' heq
    injection h with h1
    exact h1 ▸ mha_error env ps _ _ _ _ dk dv dm n ad none seed _ e' heq
  · exact absurd h (by simp)

/-- Any error of `encoder_co_layer` is the 3-D-input `ValueError`. -/
theorem encoder_co_layer_error (env : Env) (ps : Params) (ei evi bias : PTensor)
    (ch ck cv cm dm dih vm vih : ℕ) (ppd ad rd : ℚ) (act : Option String)
    (pre post : String) (seed : ℕ) (nm : String) (e : String) :
    encoder_co_layer env ps ei evi bias ch ck cv cm dm dih vm vih ppd ad rd act
        pre post seed nm = .error e → e = msgNot3D := by
  intro h
  simp only [encoder_co_layer] at h
  split at h
  · rename_i e' heq
    injection h with h1
    exact h1 ▸ mha_error env ps _ _ _ _ ck cv dm ch ad none seed _ e' heq
  · split at h
    · rename_i e' heq
      injection h with h1
      exact h1 ▸ mha_error env ps _ _ _ _ ck cv vm ch ad none seed _ e' heq
    · exact absurd h (by simp)

/-- Any error of a layer stack is the 3-D-input `ValueError`, provided each
layer's errors are. -/
theorem stackLayers_error (f : ℕ → PTensor → Except String PTensor)
    (hf : ∀ i y e, f i y = .error e → e = msgNot3D) :
    ∀ (idxs : List ℕ) (x : PTensor) (e : String),
      stackLayers f idxs x = .error e → e = msgNot3D := by
  intro idxs
  induction idxs with
  | nil => intro x e h; exact absurd h (by simp [stackLayers])
  | cons i rest ih =>
      intro x e h
      unfold stackLayers at h
      split at h
      · rename_i e' heq
        injection h with h1
        exact h1 ▸ hf i x e' heq
      · exact ih _ e h

/-- Any error of the `encoder` loop is the 3-D-input `ValueError`. -/
theorem encoderLoop_error (c : EncConf) :
    ∀ (zs : List (ℕ × ℕ)) (ei evi : PTensor) (vs ts blk : ℕ) (e : String),
      encoderLoop c zs ei evi vs ts blk = .error e → e = msgNot3D := by
  intro zs
  induction zs with
  | nil => intro ei evi vs ts blk e h; exact absurd h (by simp [encoderLoop])
  | cons p rest ih =>
      intro ei evi vs ts blk e h
      rcases p with ⟨vid, tid⟩
      unfold encoderLoop at h
      split at h
      · rename_i e' heq
        injection h with h1
        exact h1 ▸ stackLayers_error _
          (fun i y e2 h2 => encoder_layer_error c.env c.ps y c.attn_bias c.n_head
            c.d_key c.d_value c.d_model c.d_inner_hid c.prepostprocess_dropout
            c.attention_dropout c.relu_dropout c.hidden_act c.preprocess_cmd
            c.postprocess_cmd c.seed _ e2 h2)
          _ _ e' heq
      · split at h
        · rename_i e' heq
          injection h with h1
          exact h1 ▸ stackLayers_error _
            (fun i y e2 h2 => encoder_layer_error c.env c.ps y c.attn_image_bias
              c.v_head c.v_key c.v_value c.v_model c.v_inner_hid
              c.prepostprocess_dropout c.attention_dropout c.relu_dropout
              c.hidden_act c.preprocess_cmd c.postprocess_cmd c.seed _ e2 h2)
            _ _ e' heq
        · split at h
          · rename_i e' heq
            injection h with h1
            exact h1 ▸ encoder_co_layer_error c.env c.ps _ _ c.attn_vl_bias
              c.co_head c.co_key c.co_value c.co_model c.d_model c.d_inner_hid
              c.v_model c.v_inner_hid c.prepostprocess_dropout c.attention_dropout
              c.relu_dropout c.hidden_act c.preprocess_cmd c.postprocess_cmd
              c.seed _ e' heq
          · rename_i st heq
            exact ih _ _ _ _ _ e h

/-- Any error of the post-loop part of `encoder` is the 3-D-input
`ValueError`. -/
theorem encoderPost_error (c : EncConf) (r : PTensor × PTensor × ℕ × ℕ)
    (e : String) : encoderPost c r = .error e → e = msgNot3D := by
  intro h
  rcases r with ⟨ei, evi, vend, tend⟩
  simp only [encoderPost] at h
  split at h
  · rename_i e' heq
    injection h with h1
    exact h1 ▸ encoder_layer_error c.env c.ps ei c.attn_bias c.n_head c.d_key
      c.d_value c.d_model c.d_inner_hid c.prepostprocess_dropout
      c.attention_dropout c.relu_dropout c.hidden_act c.preprocess_cmd
      c.postprocess_cmd c.seed _ e' heq
  · split at h
    · rename_i e' heq
      injection h with h1
      exact h1 ▸ encoder_layer_error c.env c.ps evi c.attn_image_bias c.v_head
        c.v_key c.v_value c.v_model c.v_inner_hid c.prepostprocess_dropout
        c.attention_dropout c.relu_dropout c.hidden_act c.preprocess_cmd
        c.postprocess_cmd c.seed _ e' heq
    · exact absurd h (by simp)

/-- The two error messages of `encoder` are distinct. -/
theorem msgNot3D_ne_msgUnbound : msgNot3D ≠ msgUnbound := by decide

/-- C10: `encoder` is well-defined only for a non-empty
`zip(v_biattention_id, t_biattention_id)`: with an empty zip it fails by
referencing the unbound `enc_output` after the loop, and with a non-empty
zip that unbound-variable failure never occurs (the post-loop stream
variables are always assigned). -/
theorem encoder_unbound_iff (env : Env) (ps : Params)
    (enc_input enc_vl_input ab aib avb : PTensor)
    (nl n dk dv dm dih vh vk vv vm vih ch ck cv cm cih : ℕ)
    (ppd ad rd : ℚ) (act : Option String) (pre post : String)
    (v_ids t_ids : List ℕ) (seed : ℕ) (nm : String) :
    (v_ids.zip t_ids = []
      → encoder env ps enc_input enc_vl_input ab aib avb nl n dk dv dm dih vh vk
          vv vm vih ch ck cv cm cih ppd ad rd act pre post v_ids t_ids seed nm
        = .error msgUnbound)
    ∧ (v_ids.zip t_ids ≠ []
      → encoder env ps enc_input enc_vl_input ab aib avb nl n dk dv dm dih vh vk
          vv vm vih ch ck cv cm cih ppd ad rd act pre post v_ids t_ids seed nm
        ≠ .error msgUnbound) := by
  constructor
  · intro hz
    unfold encoder
    rw [hz]
  · intro hz h
    unfold encoder at h
    split at h
    · rename_i heq
      exact hz heq
    · simp only [] at h
      split at h
      · rename_i e' heq
        injection h with h1
        exact msgNot3D_ne_msgUnbound
          ((encoderLoop_error _ _ _ _ _ _ _ e' heq).symm.trans h1)
      · rename_i r heq
        exact msgNot3D_ne_msgUnbound
          ((encoderPost_error _ r msgUnbound h).symm)

/-- C10 witness: the empty-zip and non-empty-zip cases at concrete inputs. -/
theorem encoder_unbound_iff_witness :
    (([] : List ℕ).zip ([] : List ℕ) = []
      ∧ encoder envW psW (.t3 w3) (.t3 w3) (.t4 w4) (.t4 w4) (.t4 w4)
          1 1 1 1 1 1 1 1 1 1 1 1 1 1 1 1 0 0 0 none ("") ("") [] [] 0 ("enc")
        = .error msgUnbound)
    ∧ (([0] : List ℕ).zip ([0] : List ℕ) ≠ []
      ∧ encoder envW psW (.t3 w3) (.t3 w3) (.t4 w4) (.t4 w4) (.t4 w4)
          1 1 1 1 1 1 1 1 1 1 1 1 1 1 1 1 0 0 0 none ("") ("") [0] [0] 0 ("enc")
        ≠ .error msgUnbound) :=
  ⟨⟨rfl,
      (encoder_unbound_iff envW psW (.t3 w3) (.t3 w3) (.t4 w4) (.t4 w4) (.t4 w4)
        1 1 1 1 1 1 1 1 1 1 1 1 1 1 1 1 0 0 0 none ("") ("") [] [] 0 ("enc")).1
        rfl⟩,
    ⟨by decide,
      (encoder_unbound_iff envW psW (.t3 w3) (.t3 w3) (.t4 w4) (.t4 w4) (.t4 w4)
        1 1 1 1 1 1 1 1 1 1 1 1 1 1 1 1 0 0 0 none ("") ("") [0] [0] 0 ("enc")).2
        (by decide)⟩⟩

theorem runSchedule_append (c : EncConf) :
    ∀ (l1 l2 : List Tag) (st : PTensor × PTensor),
      runSchedule c (l1 ++ l2) st
        = match runSchedule c l1 st with
          | .error e => .error e
          | .ok st2 => runSchedule c l2 st2 := by
  intro l1
  induction l1 with
  | nil => intro l2 st; rfl
  | cons tg rest ih =>
      intro l2 st
      rcases st with ⟨ei, evi⟩
      cases tg with
      | tLayer i =>
          simp only [List.cons_append, runSchedule]
          cases h1 : textLayer c i ei
          · simp only [h1]
          · simp only [h1]; exact ih l2 _
      | vLayer i =>
          simp only [List.cons_append, runSchedule]
          cases h1 : visionLayer c i evi
          · simp only [h1]
          · simp only [h1]; exact ih l2 _
      | coLayer b =>
          simp only [List.cons_append, runSchedule]
          cases h1 : coLayer c b ei evi
          · simp only [h1]
          · simp only [h1]; exact ih l2 _
      | postT =>
          simp only [List.cons_append, runSchedule]
          exact ih l2 _
      | postV =>
          simp only [List.cons_append, runSchedule]
          exact ih l2 _

theorem runSchedule_tLayers (c : EncConf) :
    ∀ (idxs : List ℕ) (ei evi : PTensor),
      runSchedule c (idxs.map Tag.tLayer) (ei, evi)
        = match stackLayers (textLayer c) idxs ei with
          | .error e => .error e
          | .ok eo => .ok (eo, evi) := by
  intro idxs
  induction idxs with
  | nil => intro ei evi; rfl
  | cons i rest ih =>
      intro ei evi
      simp only [List.map_cons, runSchedule, stackLayers]
      cases h1 : textLayer c i ei
      · simp only [h1]
      · simp only [h1]; exact ih _ evi

theorem runSchedule_vLayers (c : EncConf) :
    ∀ (idxs : List ℕ) (ei evi : PTensor),
      runSchedule c (idxs.map Tag.vLayer) (ei, evi)
        = match stackLayers (visionLayer c) idxs evi with
          | .error e => .error e
          | .ok evo => .ok (ei, evo) := by
  intro idxs
  induction idxs with
  | nil => intro ei evi; rfl
  | cons i rest ih =>
      intro ei evi
      simp only [List.map_cons, runSchedule, stackLayers]
      cases h1 : visionLayer c i evi
      · simp only [h1]
      · simp only [h1]; exact ih ei _

/-- The loop of `encoder` together with its post-loop layers runs exactly
claim C2's schedule. -/
theorem encoderLoop_schedule (c : EncConf) :
    ∀ (zs : List (ℕ × ℕ)) (ei evi : PTensor) (vs ts blk : ℕ),
      runSchedule c (schedLoop zs vs ts blk
          ++ [Tag.tLayer (zs.getLastD (vs, ts)).2,
              Tag.vLayer (zs.getLastD (vs, ts)).1, Tag.postT, Tag.postV]) (ei, evi)
        = match encoderLoop c zs ei evi vs ts blk with
          | .error e => .error e
          | .ok r => encoderPost c r := by
  intro zs
  induction zs with
  | nil =>
      intro ei evi vs ts blk
      show runSchedule c [Tag.tLayer ts, Tag.vLayer vs, Tag.postT, Tag.postV]
          (ei, evi) = encoderPost c (ei, evi, vs, ts)
      simp only [runSchedule, encoderPost]
  | cons p rest ih =>
      intro ei evi vs ts blk
      rcases p with ⟨vid, tid⟩
      rw [List.getLastD_cons]
      simp only [schedLoop, encoderLoop]
      rw [List.append_assoc, List.append_assoc, List.cons_append]
      rw [runSchedule_append c ((List.range' ts (tid - ts)).map Tag.tLayer)]
      rw [runSchedule_tLayers]
      cases hA : stackLayers (textLayer c) (List.range' ts (tid - ts)) ei
      · simp only [hA]
      · simp only [hA]
        rw [runSchedule_append c ((List.range' vs (vid - vs)).map Tag.vLayer)]
        rw [runSchedule_vLayers]
        cases hB : stackLayers (visionLayer c) (List.range' vs (vid - vs)) evi
        · simp only [hB]
        · simp only [hB]
          simp only [runSchedule]
          cases hC : coLayer c blk _ _
          · simp only [hC]
          · simp only [hC]
            rename_i st2
            rcases st2 with ⟨eo2, evo2⟩
            exact ih eo2 evo2 vid tid (blk + 1)

/-- C2: for non-empty zipped biattention id lists, `encoder` runs exactly
the schedule of claim C2 (per zipped pair: text layers `[t_start,
t_layer_id)`, vision layers `[v_start, v_layer_id)`, one co-attention layer;
then one more encoder layer per stream at the last pair and one
`pre_process_layer` per stream); with the default id lists the text stream
passes through 24 encoder layers, the vision stream through 6, and both
through 6 co-attention layers. -/
theorem encoder_schedule (env : Env) (ps : Params)
    (enc_input enc_vl_input ab aib avb : PTensor)
    (nl n dk dv dm dih vh vk vv vm vih ch ck cv cm cih : ℕ)
    (ppd ad rd : ℚ) (act : Option String) (pre post : String)
    (v_ids t_ids : List ℕ) (seed : ℕ) (nm : String)
    (hne : v_ids.zip t_ids ≠ []) :
    (encoder env ps enc_input enc_vl_input ab aib avb nl n dk dv dm dih vh vk vv
        vm vih ch ck cv cm cih ppd ad rd act pre post v_ids t_ids seed nm
      = runSchedule
          ⟨env, ps, ab, aib, avb, n, dk, dv, dm, dih, vh, vk, vv, vm, vih, ch,
            ck, cv, cm, ppd, ad, rd, act, pre, post, seed, nm⟩
          (encSchedule v_ids t_ids) (enc_input, enc_vl_input))
    ∧ (encSchedule [0, 1, 2, 3, 4, 5] [18, 19, 20, 21, 22, 23]).countP
        (fun g => match g with | Tag.tLayer _ => true | _ => false) = 24
    ∧ (encSchedule [0, 1, 2, 3, 4, 5] [18, 19, 20, 21, 22, 23]).countP
        (fun g => match g with | Tag.vLayer _ => true | _ => false) = 6
    ∧ (encSchedule [0, 1, 2, 3, 4, 5] [18, 19, 20, 21, 22, 23]).countP
        (fun g => match g with | Tag.coLayer _ => true | _ => false) = 6 := by
  refine ⟨?_, by decide, by decide, by decide⟩
  simp only [encSchedule]
  cases hzs : v_ids.zip t_ids with
  | nil => exact absurd hzs hne
  | cons p rest =>
      unfold encoder
      rw [hzs]
      exact (encoderLoop_schedule _ (p :: rest) enc_input enc_vl_input 0 0 0).symm

/-- C2 witness: the schedule refinement at a concrete non-empty pair of id
lists. -/
theorem encoder_schedule_witness :
    ([0] : List ℕ).zip ([0] : List ℕ) ≠ []
    ∧ encoder envW psW (.t3 w3) (.t3 w3) (.t4 w4) (.t4 w4) (.t4 w4)
        1 1 1 1 1 1 1 1 1 1 1 1 1 1 1 1 0 0 0 none ("") ("") [0] [0] 0 ("enc")
      = runSchedule
          ⟨envW, psW, .t4 w4, .t4 w4, .t4 w4, 1, 1, 1, 1, 1, 1, 1, 1, 1, 1, 1, 1,
            1, 1, 0, 0, 0, none, (""), (""), 0, ("enc")⟩
          (encSchedule [0] [0]) (.t3 w3, .t3 w3) :=
  ⟨by decide,
    (encoder_schedule envW psW (.t3 w3) (.t3 w3) (.t4 w4) (.t4 w4) (.t4 w4)
      1 1 1 1 1 1 1 1 1 1 1 1 1 1 1 1 0 0 0 none ("") ("") [0] [0] 0 ("enc")
      (by decide)).1⟩

theorem textIndicesLoop_ne_nil : ∀ (zs : List (ℕ × ℕ)) (ts : ℕ),
    textIndicesLoop zs ts ≠ [] := by
  intro zs
  induction zs with
  | nil => intro ts h; exact List.cons_ne_nil _ _ h
  | cons p rest ih =>
      rcases p with ⟨vp, tp⟩
      intro ts h
      have h' : List.range' ts (tp - ts) ++ textIndicesLoop rest tp = [] := h
      exact ih tp (List.append_eq_nil.mp h').2

theorem visionIndicesLoop_ne_nil : ∀ (zs : List (ℕ × ℕ)) (vs : ℕ),
    visionIndicesLoop zs vs ≠ [] := by
  intro zs
  induction zs with
  | nil => intro vs h; exact List.cons_ne_nil _ _ h
  | cons p rest ih =>
      rcases p with ⟨vp, tp⟩
      intro vs h
      have h' : List.range' vs (vp - vs) ++ visionIndicesLoop rest vp = [] := h
      exact ih vp (List.append_eq_nil.mp h').2

/-- The last text-stream layer index of `encoder` is the second component of
the last zipped pair. -/
theorem textIndicesLoop_getLast : ∀ (zs : List (ℕ × ℕ)) (ts d : ℕ),
    (textIndicesLoop zs ts).getLast? = some (zs.getLastD (d, ts)).2 := by
  intro zs
  induction zs with
  | nil => intro ts d; rfl
  | cons p rest ih =>
      intro ts d
      rcases p with ⟨vp, tp⟩
      show (List.range' ts (tp - ts) ++ textIndicesLoop rest tp).getLast? = _
      rw [List.getLastD_cons,
        List.getLast?_append_of_ne_nil _ (textIndicesLoop_ne_nil rest tp)]
      exact ih tp vp

/-- The last vision-stream layer index of `encoder` is the first component
of the last zipped pair. -/
theorem visionIndicesLoop_getLast : ∀ (zs : List (ℕ × ℕ)) (vs d : ℕ),
    (visionIndicesLoop zs vs).getLast? = some (zs.getLastD (vs, d)).1 := by
  intro zs
  induction zs with
  | nil => intro vs d; rfl
  | cons p rest ih =>
      intro vs d
      rcases p with ⟨vp, tp⟩
      show (List.range' vs (vp - vs) ++ visionIndicesLoop rest vp).getLast? = _
      rw [List.getLastD_cons,
        List.getLast?_append_of_ne_nil _ (visionIndicesLoop_ne_nil rest vp)]
      exact ih vp tp

/-- The last element of a zip of equal-length lists. -/
theorem zip_getLastD : ∀ (v t : List ℕ) (d : ℕ × ℕ), v ≠ []
    → v.length = t.length
    → (v.zip t).getLastD d = (v.getLastD d.1, t.getLastD d.2) := by
  intro v
  induction v with
  | nil => intro t d h; exact absurd rfl h
  | cons a v' ih =>
      intro t d _ hlen
      cases t with
      | nil => exact absurd hlen (by simp)
      | cons b t' =>
          show ((a, b) :: v'.zip t').getLastD d = _
          rw [List.getLastD_cons, List.getLastD_cons, List.getLastD_cons]
          cases v' with
          | nil =>
              cases t' with
              | nil => rfl
              | cons b2 t2 => exact absurd hlen (by simp)
          | cons a2 v2 =>
              cases t' with
              | nil => exact absurd hlen (by simp)
              | cons b2 t2 =>
                  exact ih (b2 :: t2) (a, b) (List.cons_ne_nil _ _)
                    (by simpa using hlen)

/-- C9 counterexample: with `v_biattention_id = [0]` and
`t_biattention_id = [1, 2]` the zip truncates, the deepest text-stream
encoder layer of `encoder` has index 1, and the last element of
`t_biattention_id` is 2 — they differ, refuting the parenthetical of claim
C9 as stated. -/
theorem encoder_deepest_not_last_counterexample :
    (encoderTextIndices [0] [1, 2]).getLast? = some 1
    ∧ ([1, 2] : List ℕ).getLast? = some 2
    ∧ (encoderTextIndices [0] [1, 2]).getLast? ≠ ([1, 2] : List ℕ).getLast? := by
  refine ⟨by decide, by decide, by decide⟩

/-- C9 (amended): the output of `encoder` does not depend on `n_layer` —
the stacked layers are determined solely by the biattention id lists; and
for non-empty id lists *of equal length* the deepest text-stream layer index
is the last element of `t_biattention_id` and the deepest vision-stream
layer index is the last element of `v_biattention_id` (in general they are
the components of the last zipped pair). -/
theorem encoder_nlayer_independent :
    (∀ (env : Env) (ps : Params) (ei evi ab aib avb : PTensor)
        (n1 n2 n dk dv dm dih vh vk vv vm vih ch ck cv cm cih : ℕ)
        (ppd ad rd : ℚ) (act : Option String) (pre post : String)
        (v_ids t_ids : List ℕ) (seed : ℕ) (nm : String),
        encoder env ps ei evi ab aib avb n1 n dk dv dm dih vh vk vv vm vih ch ck
            cv cm cih ppd ad rd act pre post v_ids t_ids seed nm
          = encoder env ps ei evi ab aib avb n2 n dk dv dm dih vh vk vv vm vih ch
              ck cv cm cih ppd ad rd act pre post v_ids t_ids seed nm)
    ∧ (∀ (v_ids t_ids : List ℕ), v_ids ≠ [] → v_ids.length = t_ids.length →
        (encoderTextIndices v_ids t_ids).getLast? = some (t_ids.getLastD 0)
        ∧ (encoderVisionIndices v_ids t_ids).getLast? = some (v_ids.getLastD 0)) := by
  constructor
  · intro env ps ei evi ab aib avb n1 n2 n dk dv dm dih vh vk vv vm vih ch ck cv
      cm cih ppd ad rd act pre post v_ids t_ids seed nm
    rfl
  · intro v_ids t_ids hv hlen
    constructor
    · show (textIndicesLoop (v_ids.zip t_ids) 0).getLast? = _
      rw [textIndicesLoop_getLast (v_ids.zip t_ids) 0 0,
        zip_getLastD v_ids t_ids (0, 0) hv hlen]
    · show (visionIndicesLoop (v_ids.zip t_ids) 0).getLast? = _
      rw [visionIndicesLoop_getLast (v_ids.zip t_ids) 0 0,
        zip_getLastD v_ids t_ids (0, 0) hv hlen]

/-- C9 witness: `n_layer`-independence and the deepest-layer identities at
concrete equal-length lists. -/
theorem encoder_nlayer_independent_witness :
    (([0, 1] : List ℕ) ≠ [] ∧ ([0, 1] : List ℕ).length = ([2, 3] : List ℕ).length)
    ∧ ((encoderTextIndices [0, 1] [2, 3]).getLast?
          = some (([2, 3] : List ℕ).getLastD 0)
        ∧ (encoderVisionIndices [0, 1] [2, 3]).getLast?
          = some (([0, 1] : List ℕ).getLastD 0)) :=
  ⟨⟨by decide, by decide⟩,
    encoder_nlayer_independent.2 [0, 1] [2, 3] (by decide) (by decide)⟩
